import Mathlib

/-!
Verification development for the CoinCal meal-plan engine.

This file gives a shallow embedding of the meal-plan optimization core of
the repository: the ingredient-composition calculator and categorical
price markup of `backend/api/models.py` (`EgyptianMeal.calculate_nutrition`,
`EgyptianMeal.get_price`, `Ingredient.get_price_for_location`), the location
multiplier table of `backend/api/utils/location_helpers.py`, and the
plan-generation pipeline of `backend/api/views.py` (`generate_plan`):
candidate-pool construction, pool backfill, side separation, Recipe Studio
candidates, slot configuration, the three selection phases, the zero-calorie
fallback plan, and the 5-strategy rotation.

Modelling conventions:
* Python `float` and `Decimal` arithmetic is modelled as exact rational
  arithmetic over `ℚ`.  The decimal constants that appear in the source
  (1.6, 2.2, 0.95, 1.1, 0.25, ...) are written as the exact rationals they
  denote.  `Decimal.quantize` to one decimal place and Python `round(x, 1)`
  (both round-half-even) are modelled by `quantize1`; `int(x)` truncation
  toward zero is `truncQ`; `math.ceil` is `Int.ceil`.
* Python `random.shuffle` / `random.choice` calls are modelled by explicit
  parameters: the five pool reorderings of `apply_strategy_sort` are the
  function parameters named sortB, sortL, sortD, sortS, sortSide; the
  per-call shuffle of the upgrade-phase check pool is the indexed parameter
  `chk`; the five random (slot, side) draws of the final-polish phase are
  the list parameter `picks`.  Theorems quantify over these parameters, so
  they cover every realizable draw.
* Display-only candidate fields (Arabic name, vendor/source label, image
  URL) do not influence any claimed behavior and are omitted from the
  `Candidate` record.  The dict key `type` is rendered as `ctype`.
* The locals `slot_price` and the per-slot `budget_target` of the source
  are written but never read afterwards (dead locals); they are omitted.
* `str.lower` is modelled on the character list (`lowerChars`); all the
  keyword tables of the source are ASCII or caseless Arabic, for which this
  agrees with Python.
* Control flow of `generate_plan` (views.py): the meals-count dispatch at
  line 1437 builds fixed slot layouts for clamped counts 1-3 and then the
  function body simply ends with no response statement; the strategy
  rotation, the three selection phases, the fallback and the `Response`
  construction (lines 1499-1793) are all nested inside the `else:` branch
  and run only for clamped counts of four or more.  `PlanOutcome.noResponse`
  models the 1-3 paths falling off the end of the body.  The `except` block
  at lines 1795-1802 (which would map exceptions to a 500 response) has no
  matching open `try:` — the `try` at line 1427 is closed at 1429 — so the
  module as staged is a Python `SyntaxError`; the embedding models the
  statements of the function body as written.
-/

/-- Prefix test on character lists, used to model the Python substring
operator `in` for strings. -/
def charsStartWith : List Char → List Char → Bool
  | [], _ => true
  | _ :: _, [] => false
  | p :: ps, t :: ts => p = t && charsStartWith ps ts

/-- Occurrence test for a character pattern inside a character list. -/
def charsOccurIn (pat : List Char) : List Char → Bool
  | [] => charsStartWith pat []
  | t :: ts => charsStartWith pat (t :: ts) || charsOccurIn pat ts

/-- Lower-cased character list of a string, modelling Python `str.lower`. -/
def lowerChars (s : String) : List Char := s.toList.map Char.toLower

/-- Containment of the string pattern `pat` in the character list `s`,
modelling the Python expression `pat in s`. -/
def strContains (s : List Char) (pat : String) : Bool := charsOccurIn pat.toList s

/-- Round-half-even to an integer, the rounding used by Python `round` and
by `Decimal.quantize` with the default context. -/
def roundHalfEven (x : ℚ) : ℤ :=
  if Int.fract x < 1/2 then ⌊x⌋
  else if 1/2 < Int.fract x then ⌊x⌋ + 1
  else if ⌊x⌋ % 2 = 0 then ⌊x⌋ else ⌊x⌋ + 1

/-- Quantization to one decimal place with round-half-even, modelling
`Decimal.quantize(Decimal('0.1'))` and Python `round(x, 1)`. -/
def quantize1 (x : ℚ) : ℚ := (roundHalfEven (10 * x) : ℚ) / 10

/-- Truncation toward zero, modelling the Python `int(...)` conversion. -/
def truncQ (q : ℚ) : ℤ := if 0 ≤ q then ⌊q⌋ else ⌈q⌉

/-- Location multiplier table of `location_helpers.LOCATION_MULTIPLIERS`. -/
def LOCATION_MULTIPLIERS : List (String × ℚ) :=
  [("metro", 1), ("major_city", 19/20), ("regional", 22/25),
   ("provincial", 4/5), ("rural", 7/10)]

/-- Multiplier lookup of `location_helpers.get_multiplier_for_category`;
an unknown category maps to the metro multiplier 1.0. -/
def get_multiplier_for_category (category : String) : ℚ :=
  (List.lookup category LOCATION_MULTIPLIERS).getD 1

/-- Location-adjusted ingredient price, modelling
`Ingredient.get_price_for_location` of `models.py` (whose inline multiplier
dict has exactly the values of `LOCATION_MULTIPLIERS`). -/
def get_price_for_location (base_price : ℚ) (location_category : String) : ℚ :=
  base_price * get_multiplier_for_category location_category

/-- Ground-truth ingredient record of `models.Ingredient`: unit of measure,
nutrition per 100 reference units and base reference price. -/
structure Ingredient where
  name : String
  unit : String
  calories_per_100g : ℚ
  protein_per_100g : ℚ
  carbs_per_100g : ℚ
  fat_per_100g : ℚ
  fiber_per_100g : ℚ
  base_price : ℚ
  deriving DecidableEq

/-- Recipe line of `models.MealRecipe`: an ingredient with its
weight-percentage of the serving. -/
structure MealRecipeItem where
  ingredient : Ingredient
  percentage : ℚ
  deriving DecidableEq

/-- Composite meal record of `models.EgyptianMeal`.  The `id` field is the
database primary key used as candidate id, `meal_id` the stable string key
used for slot categorization. -/
structure EgyptianMeal where
  id : ℤ
  meal_id : String
  name_en : String
  default_serving_weight_g : ℤ
  recipe_items : List MealRecipeItem
  deriving DecidableEq

/-- Keyword list of `EgyptianMeal.get_price` that selects the lower
(breakfast or snack) markup tier. -/
def markup_keywords : List String :=
  ["sandwich", "pudding", "foul", "tameya", "basbousa", "om ali", "baba",
   "side", "salad", "tahini", "dip", "hawawshi", "koshary", "fiteer", "zalabya"]

/-- Cost of one recipe line in `EgyptianMeal.get_price`.  Both branches of
the source compute `(ingredient_weight / 100) * base_price`; the PIECE
branch explicitly defaults to the same 100-unit normalization as the
GRAM/ML branch (see the source comments at models.py lines 417-432). -/
def recipeItemCost (w : ℚ) (item : MealRecipeItem) : ℚ :=
  let ingredient_weight := w * (item.percentage / 100)
  if item.ingredient.unit = "GRAM" ∨ item.ingredient.unit = "ML" then
    (ingredient_weight / 100) * item.ingredient.base_price
  else
    (ingredient_weight / 100) * item.ingredient.base_price

/-- Price of a composite meal, modelling `EgyptianMeal.get_price`: summed
ingredient cost, categorical markup 1.6 or 2.2 chosen by keyword match on
the English name, and a final ceiling to a whole currency unit. -/
def get_price (m : EgyptianMeal) (weight_g : Option ℚ) : ℚ :=
  let w := weight_g.getD (m.default_serving_weight_g : ℚ)
  let total_cost := (m.recipe_items.map (recipeItemCost w)).sum
  let is_breakfast_or_snack :=
    markup_keywords.any (fun k => strContains (lowerChars m.name_en) k)
  let markup : ℚ := if is_breakfast_or_snack then 8/5 else 11/5
  ((⌈total_cost * markup⌉ : ℤ) : ℚ)

/-- Price of a composite meal under the specification reading that a
counted (per-piece) ingredient line is charged by direct multiplication of
the amount by the base price, with no 100-unit normalization.  This
definition follows the specification text and exists only to be compared
with `get_price`, which embeds the source. -/
def get_price_specPieceRule (m : EgyptianMeal) (weight_g : Option ℚ) : ℚ :=
  let w := weight_g.getD (m.default_serving_weight_g : ℚ)
  let lineCost := fun (item : MealRecipeItem) =>
    let ingredient_weight := w * (item.percentage / 100)
    if item.ingredient.unit = "GRAM" ∨ item.ingredient.unit = "ML" then
      (ingredient_weight / 100) * item.ingredient.base_price
    else
      ingredient_weight * item.ingredient.base_price
  let total_cost := (m.recipe_items.map lineCost).sum
  let is_breakfast_or_snack :=
    markup_keywords.any (fun k => strContains (lowerChars m.name_en) k)
  let markup : ℚ := if is_breakfast_or_snack then 8/5 else 11/5
  ((⌈total_cost * markup⌉ : ℤ) : ℚ)

/-- Pre-rounding nutrient total of `EgyptianMeal.calculate_nutrition` for
one selected nutrient field: the sum over recipe lines of
`nutrient_per_100 * scale` with `scale = (w * percentage / 100) / 100`. -/
def nutrientTotal (sel : MealRecipeItem → ℚ) (m : EgyptianMeal) (w : ℚ) : ℚ :=
  (m.recipe_items.map (fun ri => sel ri * ((w * ri.percentage / 100) / 100))).sum

/-- Result record of `EgyptianMeal.calculate_nutrition`. -/
structure NutritionResult where
  calories : ℚ
  protein : ℚ
  carbs : ℚ
  fat : ℚ
  fiber : ℚ
  price : ℚ
  deriving DecidableEq

/-- Nutrition of a composite meal at a given serving weight, modelling
`EgyptianMeal.calculate_nutrition`: each nutrient total is quantized to one
decimal place and the price comes from `get_price`. -/
def calculate_nutrition (m : EgyptianMeal) (weight_g : Option ℚ) : NutritionResult :=
  let w := weight_g.getD (m.default_serving_weight_g : ℚ)
  { calories := quantize1 (nutrientTotal (fun ri => ri.ingredient.calories_per_100g) m w)
    protein := quantize1 (nutrientTotal (fun ri => ri.ingredient.protein_per_100g) m w)
    carbs := quantize1 (nutrientTotal (fun ri => ri.ingredient.carbs_per_100g) m w)
    fat := quantize1 (nutrientTotal (fun ri => ri.ingredient.fat_per_100g) m w)
    fiber := quantize1 (nutrientTotal (fun ri => ri.ingredient.fiber_per_100g) m w)
    price := get_price m weight_g }

/-- Identifier of a plan candidate.  Database-backed candidates carry the
integer primary key stored under the dict key `id`; Recipe Studio
candidates carry the id wrapped by the `recipe_` string prefixing of the
source, which never collides with an integer id. -/
inductive CandId where
  | db : ℤ → CandId
  | studio : ℤ → CandId
  deriving DecidableEq

/-- Candidate dict built by `generate_plan`: the fields that drive
selection (name, calories, protein, price) plus id and the `type` tag. -/
structure Candidate where
  id : CandId
  name : String
  calories : ℤ
  protein : ℚ
  price : ℚ
  ctype : String
  deriving DecidableEq

/-- Slot pools accumulated by `generate_plan` before side separation. -/
structure Pools where
  breakfast : List Candidate
  lunch : List Candidate
  dinner : List Candidate
  snack : List Candidate
  deriving DecidableEq

/-- Dispatch of a candidate into the slot pools by category keyword,
modelling the nested helper `add_to_pool`: a snack joins both the snack and
the breakfast pool, and an unrecognized category defaults to lunch. -/
def add_to_pool (p : Pools) (item : Candidate) (category : String) : Pools :=
  let cat := lowerChars category
  if strContains cat "breakfast" then { p with breakfast := p.breakfast ++ [item] }
  else if strContains cat "lunch" then { p with lunch := p.lunch ++ [item] }
  else if strContains cat "dinner" then { p with dinner := p.dinner ++ [item] }
  else if strContains cat "snack" then
    { p with snack := p.snack ++ [item], breakfast := p.breakfast ++ [item] }
  else { p with lunch := p.lunch ++ [item] }

/-- Row of the `MarketPrice` catalog join consumed by section A of
`generate_plan` (meal id, display name, nutrition, vendor price, type). -/
structure MarketPriceItem where
  meal_id : ℤ
  meal_name : String
  meal_calories : ℤ
  meal_protein : ℚ
  price_egp : ℚ
  meal_type : String
  deriving DecidableEq

/-- Candidate dict built for a global catalog item. -/
def globalCandidate (i : MarketPriceItem) : Candidate :=
  ⟨CandId.db i.meal_id, i.meal_name, i.meal_calories, i.meal_protein, i.price_egp, "global"⟩

/-- Section A of the pool build: every global item whose price exceeds the
daily budget is skipped, the rest are dispatched by their meal type. -/
def addGlobalItems (daily_budget : ℚ) (items : List MarketPriceItem) (p : Pools) : Pools :=
  items.foldl
    (fun p i => if i.price_egp > daily_budget then p
                else add_to_pool p (globalCandidate i) i.meal_type) p

/-- Candidate dict built for a composite Egyptian meal: calories truncated
to an integer, protein and price from `calculate_nutrition`. -/
def egyptianCandidate (m : EgyptianMeal) : Candidate :=
  let nutr := calculate_nutrition m none
  ⟨CandId.db m.id, m.name_en, truncQ nutr.calories, nutr.protein, nutr.price, "egyptian"⟩

/-- Breakfast keyword markers for composite meals (section B). -/
def egyptianBreakfastMarkers : List String :=
  ["foul", "tameya", "beid", "shakshuka", "cheese", "falafel"]

/-- Snack keyword markers for composite meals (section B). -/
def egyptianSnackMarkers : List String :=
  ["basbousa", "zalabya", "om_ali", "pudding", "halawa", "honey", "sugar", "sweet"]

/-- Dinner keyword markers for composite meals (section B). -/
def egyptianDinnerMarkers : List String :=
  ["sand", "liver_sand", "sausage_sand", "kofta_sand", "shrimp", "mahshi", "soup"]

/-- Section B of the pool build: composite meals are priced through
`calculate_nutrition`, budget-filtered, and categorized by keyword match
on the lower-cased stable meal key. -/
def addEgyptianItems (daily_budget : ℚ) (items : List EgyptianMeal) (p : Pools) : Pools :=
  items.foldl
    (fun p m =>
      let c := egyptianCandidate m
      if c.price > daily_budget then p
      else
        let mid := lowerChars m.meal_id
        if egyptianBreakfastMarkers.any (fun k => strContains mid k) then
          add_to_pool p c "Breakfast"
        else if egyptianSnackMarkers.any (fun k => strContains mid k) then
          add_to_pool p c "Snack"
        else if egyptianDinnerMarkers.any (fun k => strContains mid k) then
          add_to_pool p c "Dinner"
        else add_to_pool p c "Lunch") p

/-- Saved custom meal of `models.UserCustomMeal` as read in section C. -/
structure UserCustomMeal where
  id : ℤ
  name : String
  calories : ℤ
  protein_g : ℚ
  deriving DecidableEq

/-- Candidate dict built for a saved custom meal: the price field is the
literal 0.0 of the source. -/
def customCandidate (m : UserCustomMeal) : Candidate :=
  ⟨CandId.db m.id, m.name, m.calories, m.protein_g, 0, "custom"⟩

/-- Section C of the pool build: saved custom meals join the pools with no
budget filter; meals over 400 calories go to lunch and dinner, the rest to
breakfast and lunch. -/
def addCustomItems (items : List UserCustomMeal) (p : Pools) : Pools :=
  items.foldl
    (fun p m =>
      let c := customCandidate m
      if m.calories > 400 then
        { p with lunch := p.lunch ++ [c], dinner := p.dinner ++ [c] }
      else
        { p with breakfast := p.breakfast ++ [c], lunch := p.lunch ++ [c] }) p

/-- Sequential backfill of empty pools (views.py lines 1329-1333): each
empty pool is replaced by the concatenation of two other pools, later
checks seeing the earlier replacements. -/
def backfillPools (p : Pools) : Pools :=
  let b := if p.breakfast = [] then p.lunch ++ p.dinner else p.breakfast
  let l := if p.lunch = [] then b ++ p.dinner else p.lunch
  let d := if p.dinner = [] then b ++ l else p.dinner
  let s := if p.snack = [] then b ++ l else p.snack
  ⟨b, l, d, s⟩

/-- Flat candidate list (views.py line 1335), formed after backfill and
before side separation. -/
def all_candidates (p : Pools) : List Candidate :=
  p.breakfast ++ p.lunch ++ p.dinner ++ p.snack

/-- Pool-construction stage of `generate_plan`: sections A, B, C followed
by the backfill. -/
def candidatePoolStage (daily_budget : ℚ) (global_items : List MarketPriceItem)
    (egyptian_items : List EgyptianMeal) (custom_items : List UserCustomMeal) : Pools :=
  backfillPools
    (addCustomItems custom_items
      (addEgyptianItems daily_budget egyptian_items
        (addGlobalItems daily_budget global_items ⟨[], [], [], []⟩)))

/-- Side keyword list of the nested helper `is_side_dish`. -/
def side_keywords : List String :=
  ["rice", "bread", "salad", "baladi", "عيش", "أرز", "سلطة", "خبز",
   "vegetables", "cucumber", "tomato", "خيار", "طماطم", "fino", "toast",
   "shamy", "peta", "dip", "tahina", "baba", "soup", "goulash_sweet",
   "sambousek", "kobeba", "turshi", "pickle"]

/-- Side classification of the nested helper `is_side_dish`: sandwiches are
never sides; otherwise a keyword hit or fewer than 150 calories makes a
candidate a side. -/
def is_side_dish (item : Candidate) : Bool :=
  let name_lower := lowerChars item.name
  if strContains name_lower "sandwich" || strContains name_lower "hawawshi" then false
  else side_keywords.any (fun k => strContains name_lower k) || decide (item.calories < 150)

/-- Side separation (views.py lines 1341-1364): sides are collected from
the flat candidate list and removed from the three main pools; the snack
pool is left untouched. -/
def separateSides (p : Pools) (allC : List Candidate) : Pools × List Candidate :=
  let pool_sides := allC.filter (fun c => is_side_dish c)
  ({ p with breakfast := p.breakfast.filter (fun m => !(is_side_dish m)),
            lunch := p.lunch.filter (fun m => !(is_side_dish m)),
            dinner := p.dinner.filter (fun m => !(is_side_dish m)) }, pool_sides)

/-- Ingredient record consumed by the Recipe Studio loop (section 3b). -/
structure StudioIngredient where
  unit : String
  calories_per_100g : ℚ
  protein_per_100g : ℚ
  price_per_unit : ℚ
  deriving DecidableEq

/-- Recipe line of a Recipe Studio recipe. -/
structure StudioRecipeItem where
  amount : ℚ
  ingredient : StudioIngredient
  deriving DecidableEq

/-- Saved Recipe Studio recipe. -/
structure StudioRecipe where
  id : ℤ
  name : String
  servings : ℤ
  items : List StudioRecipeItem
  deriving DecidableEq

/-- Nutrition scale for one Recipe Studio line: amount / 100 for GRAM and
ML units, the raw amount for counted units. -/
def studioScale (ri : StudioRecipeItem) : ℚ :=
  if ri.ingredient.unit = "GRAM" ∨ ri.ingredient.unit = "ML" then ri.amount / 100
  else ri.amount

/-- Breakfast markers of the Recipe Studio heuristic categorization. -/
def recipeBreakfastMarkers : List String :=
  ["egg", "oat", "breakfast", "pancake", "toast", "ful", "beans"]

/-- Section 3b of `generate_plan`: when requested, saved Recipe Studio
recipes join the pools with per-serving stats (calories and protein
truncated to integers) and a keyword pick between breakfast and the
lunch-plus-dinner default.  No budget filter is applied here. -/
def addStudioRecipes (include_custom : Bool) (recipes : List StudioRecipe) (p : Pools) : Pools :=
  if !include_custom then p
  else
    recipes.foldl
      (fun p r =>
        if r.servings > 0 then
          let total_cals := (r.items.map (fun ri => ri.ingredient.calories_per_100g * studioScale ri)).sum
          let total_prot := (r.items.map (fun ri => ri.ingredient.protein_per_100g * studioScale ri)).sum
          let total_cost := (r.items.map (fun ri => ri.amount * ri.ingredient.price_per_unit)).sum
          let c : Candidate :=
            ⟨CandId.studio r.id, r.name, truncQ (total_cals / (r.servings : ℚ)),
              ((truncQ (total_prot / (r.servings : ℚ)) : ℤ) : ℚ),
              total_cost / (r.servings : ℚ), "custom"⟩
          let name_lower := lowerChars r.name
          if recipeBreakfastMarkers.any (fun k => strContains name_lower k) then
            { p with breakfast := p.breakfast ++ [c] }
          else
            { p with lunch := p.lunch ++ [c], dinner := p.dinner ++ [c] }
        else p) p

/-- Slot descriptor of the dynamic slot configuration: label, calorie
share, backing pool and the (unused downstream) sides allowance. -/
structure Slot where
  name : String
  pct : ℚ
  pool : List Candidate
  sides : ℕ

/-- Dynamic slot configuration for a clamped meal count (views.py lines
1436-1497): fixed layouts for 1-3 meals, and for four or more meals the
three mains interleaved with evenly weighted snack slots. -/
def slotsFor (meals_count : ℤ) (pb pl pd ps : List Candidate) : List Slot :=
  if meals_count = 1 then [⟨"dinner", 1, pd, 4⟩]
  else if meals_count = 2 then
    [⟨"lunch", 1/2, pl, 3⟩, ⟨"dinner", 1/2, pd, 3⟩]
  else if meals_count = 3 then
    [⟨"breakfast", 3/10, pb, 2⟩, ⟨"lunch", 2/5, pl, 3⟩, ⟨"dinner", 3/10, pd, 3⟩]
  else
    let snack_count := meals_count - 3
    let snack_pct : ℚ := (1/5) / (snack_count : ℚ)
    let snackSlot := fun (n : ℕ) => (⟨"snack_" ++ toString n, snack_pct, ps, 0⟩ : Slot)
    let part1 := [(⟨"breakfast", 1/4, pb, 1⟩ : Slot)]
      ++ (if snack_count > 0 then [snackSlot 1] else [])
    let sa1 : ℕ := if snack_count > 0 then 1 else 0
    let part2 := part1 ++ [(⟨"lunch", 3/10, pl, 2⟩ : Slot)]
      ++ (if snack_count > 1 then [snackSlot 2] else [])
    let sa2 : ℕ := sa1 + (if snack_count > 1 then 1 else 0)
    part2 ++ [(⟨"dinner", 1/4, pd, 2⟩ : Slot)]
      ++ (List.range (snack_count.toNat - sa2)).map (fun j => snackSlot (sa2 + 1 + j))

/-- Per-slot calorie target (views.py lines 1583-1603): the share of the
calorie target, raised by ten percent for slots holding more than fifteen
percent of the day, with `int` truncation at each step. -/
def slotCalTarget (target_calories : ℤ) (s : Slot) : ℤ :=
  let t := truncQ ((target_calories : ℚ) * s.pct)
  if s.pct > 3/20 then truncQ ((t : ℚ) * (11/10)) else t

/-- Stable descending insertion by calorie share, modelling the stable
Python `sorted(slots, key=pct, reverse=True)`. -/
def insertSlotDesc (c : Slot) : List Slot → List Slot
  | [] => [c]
  | x :: xs => if c.pct ≤ x.pct then x :: insertSlotDesc c xs else c :: x :: xs

/-- Slots in the order processed by phase 1: sorted by descending calorie
share, ties keeping their original order. -/
def sorted_slots (slots : List Slot) : List Slot :=
  slots.foldl (fun acc c => insertSlotDesc c acc) []

/-- Plan under construction: the `meal_groups` dict as an ordered
association list from slot label to selected candidates. -/
abbrev Plan := List (String × List Candidate)

/-- Initial plan with one empty entry per distinct slot label, modelling
the dict comprehension that creates `meal_groups`. -/
def planInitFrom (acc : Plan) : List Slot → Plan
  | [] => acc
  | s :: rest =>
      planInitFrom
        (if (List.lookup s.name acc).isSome then acc else acc ++ [(s.name, [])]) rest

/-- Initial `meal_groups` dict for a slot list. -/
def planInit (slots : List Slot) : Plan := planInitFrom [] slots

/-- Value of a plan entry, defaulting to the empty selection. -/
def planGet (p : Plan) (k : String) : List Candidate := (List.lookup k p).getD []

/-- Replacement of the selection stored under a label. -/
def planSet (p : Plan) (k : String) (v : List Candidate) : Plan :=
  p.map (fun e => if e.1 = k then (e.1, v) else e)

/-- Dict write that inserts the label when absent, used by the fallback
plan construction. -/
def planUpsert (p : Plan) (k : String) (v : List Candidate) : Plan :=
  if (List.lookup k p).isSome then planSet p k v else p ++ [(k, v)]

/-- Sum of the prices of a candidate list. -/
def priceSum (l : List Candidate) : ℚ := (l.map (fun c => c.price)).sum

/-- Labels of a plan in order. -/
def planKeys (p : Plan) : List String := p.map Prod.fst

/-- Distinctness of the candidate names in a selection. -/
def namesNodup (l : List Candidate) : Prop := (l.map (fun c => c.name)).Nodup

/-- Sum of the prices of every candidate selected anywhere in a plan. -/
def planPriceSum (p : Plan) : ℚ := (p.map (fun e => priceSum e.2)).sum

/-- Total number of candidates selected anywhere in a plan. -/
def planItemCount (p : Plan) : ℕ := (p.map (fun e => e.2.length)).sum

/-- Number of occurrences of a candidate id anywhere in a plan. -/
def planIdCount (p : Plan) (i : CandId) : ℕ :=
  (p.map (fun e => (e.2.filter (fun c => c.id = i)).length)).sum

/-- Running totals of the selection phases. -/
structure OptTotals where
  total_price : ℚ
  total_cals : ℤ
  total_prot : ℚ

/-- Greedy walk of one slot pool in phase 1 (views.py lines 1610-1631):
skip a candidate already selected in this slot by name, skip a candidate
that would push the global total over the daily budget, accept while the
slot calorie count is below the slot target, and stop at the first
candidate seen once the slot target is reached. -/
def phase1Slot (daily_budget : ℚ) (cal_target : ℤ) :
    List Candidate → List Candidate → OptTotals → ℤ → List Candidate × OptTotals
  | [], sel, t, _ => (sel, t)
  | c :: rest, sel, t, slot_cals =>
    if sel.any (fun i => i.name = c.name) then
      phase1Slot daily_budget cal_target rest sel t slot_cals
    else if t.total_price + c.price > daily_budget then
      phase1Slot daily_budget cal_target rest sel t slot_cals
    else if slot_cals < cal_target then
      phase1Slot daily_budget cal_target rest (sel ++ [c])
        ⟨t.total_price + c.price, t.total_cals + c.calories, t.total_prot + c.protein⟩
        (slot_cals + c.calories)
    else (sel, t)

/-- Phase 1 over the slots in processing order: each slot walks its pool
(or the flat candidate list when its pool is empty) and stores the
selection back into the plan. -/
def phase1 (daily_budget : ℚ) (target_calories : ℤ) (allC : List Candidate) :
    List Slot → Plan → OptTotals → Plan × OptTotals
  | [], plan, t => (plan, t)
  | s :: rest, plan, t =>
    let s_pool := if s.pool = [] then allC else s.pool
    let r := phase1Slot daily_budget (slotCalTarget target_calories s) s_pool
      (planGet plan s.name) t 0
    phase1 daily_budget target_calories allC rest (planSet plan s.name r.1) r.2

/-- Scan of the shuffled check pool for the best upgrade of one selected
item (views.py lines 1648-1668): candidates already in the slot by name are
skipped, a positive price difference within the remaining budget is
required, and the best protein gain wins with a calorie tie-break. -/
def findUpgrade (cur : Candidate) (sel : List Candidate) (remaining : ℚ) :
    List Candidate → Option Candidate → ℚ → Option Candidate
  | [], best, _ => best
  | c :: rest, best, maxg =>
    if sel.any (fun i => i.name = c.name) then
      findUpgrade cur sel remaining rest best maxg
    else
      let pd := c.price - cur.price
      if 0 < pd ∧ pd ≤ remaining then
        let gain := c.protein - cur.protein
        if maxg < gain then findUpgrade cur sel remaining rest (some c) gain
        else if gain = maxg ∧ cur.calories < c.calories then
          findUpgrade cur sel remaining rest (some c) maxg
        else findUpgrade cur sel remaining rest best maxg
      else findUpgrade cur sel remaining rest best maxg

/-- State after walking part of one slot selection in phase 2. -/
structure WalkState where
  sel : List Candidate
  remaining : ℚ
  t : OptTotals
  k : ℕ

/-- Positional walk of one slot selection in phase 2 (views.py lines
1645-1678): each position draws a fresh shuffle of the first fifty pool
entries, scans it with `findUpgrade` against the current full selection,
and swaps in place on success, updating the remaining budget and totals. -/
def upgradeWalk (chk : ℕ → List Candidate → List Candidate) (effPool : List Candidate) :
    List Candidate → List Candidate → ℚ → OptTotals → ℕ → WalkState
  | [], pre, remaining, t, k => ⟨pre, remaining, t, k⟩
  | cur :: rest, pre, remaining, t, k =>
    let whole := pre ++ cur :: rest
    let check_pool := chk k (effPool.take 50)
    match findUpgrade cur whole remaining check_pool none 0 with
    | none => upgradeWalk chk effPool rest (pre ++ [cur]) remaining t (k + 1)
    | some best =>
      let pd := best.price - cur.price
      upgradeWalk chk effPool rest (pre ++ [best]) (remaining - pd)
        ⟨t.total_price + pd, t.total_cals + (best.calories - cur.calories),
          t.total_prot + (best.protein - cur.protein)⟩ (k + 1)

/-- Mutable optimizer state threaded through phases 2 and 3. -/
structure OptState where
  plan : Plan
  remaining : ℚ
  t : OptTotals
  k : ℕ

/-- One pass of phase 2 over all slots. -/
def phase2Pass (chk : ℕ → List Candidate → List Candidate) (allC : List Candidate) :
    List Slot → OptState → OptState
  | [], st => st
  | s :: rest, st =>
    let effPool := if s.pool = [] then allC else s.pool
    let w := upgradeWalk chk effPool (planGet st.plan s.name) [] st.remaining st.t st.k
    phase2Pass chk allC rest ⟨planSet st.plan s.name w.sel, w.remaining, w.t, w.k⟩

/-- Phase 2 (views.py lines 1633-1678): three upgrade passes, run only when
budget remains after phase 1. -/
def phase2 (chk : ℕ → List Candidate → List Candidate) (allC : List Candidate)
    (slots : List Slot) (daily_budget : ℚ) (plan : Plan) (t : OptTotals) : OptState :=
  let remaining := daily_budget - t.total_price
  if 0 < remaining then
    phase2Pass chk allC slots (phase2Pass chk allC slots
      (phase2Pass chk allC slots ⟨plan, remaining, t, 0⟩))
  else ⟨plan, remaining, t, 0⟩

/-- Loop body of phase 3 (views.py lines 1682-1696): up to five random
(slot, side) draws; a draw is added when the side is not already in the
slot by name and its price fits the remaining budget. -/
def phase3Loop : ℕ → List (String × Candidate) → Plan → ℚ → OptTotals →
    Plan × ℚ × OptTotals
  | 0, _, plan, remaining, t => (plan, remaining, t)
  | _ + 1, [], plan, remaining, t => (plan, remaining, t)
  | fuel + 1, (sn, side) :: rest, plan, remaining, t =>
    if remaining ≤ 0 then (plan, remaining, t)
    else
      match List.lookup sn plan with
      | none => phase3Loop fuel rest plan remaining t
      | some sel =>
        if sel.any (fun m => m.name = side.name) then
          phase3Loop fuel rest plan remaining t
        else if side.price ≤ remaining then
          phase3Loop fuel rest (planSet plan sn (sel ++ [side])) (remaining - side.price)
            ⟨t.total_price + side.price, t.total_cals + side.calories,
              t.total_prot + side.protein⟩
        else phase3Loop fuel rest plan remaining t

/-- Phase 3: the side-adding loop runs only when budget remains and the
side pool is non-empty. -/
def phase3 (pool_sides : List Candidate) (picks : List (String × Candidate))
    (st : OptState) : Plan × OptTotals :=
  if 0 < st.remaining ∧ pool_sides ≠ [] then
    let r := phase3Loop 5 picks st.plan st.remaining st.t
    (r.1, r.2.2)
  else (st.plan, st.t)

/-- Fallback plan (views.py lines 1711-1716): the first entry of every
non-empty slot pool, with no budget check. -/
def fallbackPlan (slots : List Slot) : Plan :=
  slots.foldl
    (fun acc s => match s.pool with
      | [] => acc
      | c :: _ => planUpsert acc s.name [c]) []

/-- Selection pipeline of `generate_plan`: phase 1 over the sorted slots,
phase 2, phase 3, and the zero-calorie fallback.  Returns the final plan
and the running totals (which the source computes before the fallback). -/
def plan_pipeline (daily_budget : ℚ) (target_calories : ℤ) (allC : List Candidate)
    (slots : List Slot) (pool_sides : List Candidate)
    (chk : ℕ → List Candidate → List Candidate)
    (picks : List (String × Candidate)) : Plan × OptTotals :=
  let r1 := phase1 daily_budget target_calories allC (sorted_slots slots) (planInit slots)
    ⟨0, 0, 0⟩
  let st2 := phase2 chk allC slots daily_budget r1.1 r1.2
  let r3 := phase3 pool_sides picks st2
  let finalPlan := if r3.1 = [] ∨ r3.2.total_cals = 0 then fallbackPlan slots else r3.1
  (finalPlan, r3.2)

/-- Strategy list of the 5-strategy rotation (views.py lines 1504-1510). -/
def STRATEGY_NAMES : List String :=
  ["Balanced (Standard)", "High Protein", "Budget Saver",
   "High Energy (Carbs)", "Variety Shuffle"]

/-- Rotation step (views.py line 1512): the stored index advances by one
modulo five.  The source executes this only inside the else-branch of the
meals-count dispatch, i.e. for clamped meal counts of four or more. -/
def next_variant (last_plan_variant : ℤ) : ℤ := (last_plan_variant + 1) % 5

/-- Iterated rotation: the variant in effect after n further plan calls. -/
def variantIter (v : ℤ) : ℕ → ℤ
  | 0 => v
  | n + 1 => next_variant (variantIter v n)

/-- Strategy names seen over five consecutive plan calls starting from a
stored index v. -/
def strategiesVisited (v : ℤ) : List String :=
  (List.range 5).map (fun n => STRATEGY_NAMES.getD (variantIter v (n + 1)).toNat "")

/-- Low-calorie warning text of views.py line 1701. -/
def planWarningText : String :=
  "Budget may be too low for your calorie target. Recommending the most calorie-dense items possible."

/-- Result record serialized by `generate_plan`: the plan, the rounded
price total, truncated totals, warning, strategy name and the rotation
index written back to the profile. -/
structure PlanResult where
  plan : Plan
  total_price : ℚ
  total_calories : ℤ
  total_protein : ℤ
  warning : String
  strategy_name : String
  new_last_variant : ℤ

/-- Body of the four-or-more-meals else-branch of `generate_plan`
(views.py lines 1454-1793), together with the input clamping, pool build,
side separation and Recipe Studio candidates that precede the dispatch:
strategy rotation, slot configuration, the selection pipeline and the
result record.  `generate_plan` invokes it only when the clamped meal
count is at least four.  The sortB, sortL, sortD, sortS and sortSide
parameters stand for the in-place pool reorderings of
`apply_strategy_sort`. -/
def plan_success (global_items : List MarketPriceItem) (egyptian_items : List EgyptianMeal)
    (custom_items : List UserCustomMeal) (include_custom : Bool)
    (user_recipes : List StudioRecipe) (req_target_calories : ℤ) (req_daily_budget : ℚ)
    (req_meals_count : ℤ) (last_plan_variant : ℤ)
    (sortB sortL sortD sortS sortSide : List Candidate → List Candidate)
    (chk : ℕ → List Candidate → List Candidate)
    (picks : List (String × Candidate)) : PlanResult :=
  let daily_budget := max 1 req_daily_budget
  let target_calories := max 500 req_target_calories
  let meals_count := max 1 (min 10 req_meals_count)
  let p4 := candidatePoolStage daily_budget global_items egyptian_items custom_items
  let allC := all_candidates p4
  let sep := separateSides p4 allC
  let p6 := addStudioRecipes include_custom user_recipes sep.1
  let slots := slotsFor meals_count (sortB p6.breakfast) (sortL p6.lunch)
    (sortD p6.dinner) (sortS p6.snack)
  let pool_sides := sortSide sep.2
  let current_variant := next_variant last_plan_variant
  let r := plan_pipeline daily_budget target_calories allC slots pool_sides chk picks
  { plan := r.1
    total_price := quantize1 r.2.total_price
    total_calories := r.2.total_cals
    total_protein := truncQ r.2.total_prot
    warning := if (r.2.total_cals : ℚ) < (target_calories : ℚ) * (19/20)
      then planWarningText else ""
    strategy_name := STRATEGY_NAMES.getD current_variant.toNat ""
    new_last_variant := current_variant }

/-- Outcome of one call of the plan-generation view body as written.
`notFound` is the 404 "No meals found available." of views.py line 1336;
`noResponse` is control falling off the end of the function body, which is
what the source does for clamped meal counts 1-3 (their dispatch branches
at lines 1438-1452 only build a slot list and no later statement is at
their nesting level); `ok` carries the response payload built at lines
1784-1793 inside the four-or-more-meals branch. -/
inductive PlanOutcome where
  | notFound : PlanOutcome
  | noResponse : PlanOutcome
  | ok : PlanResult → PlanOutcome

/-- Plan generation endpoint core, with the meals-count dispatch of
views.py line 1437: after the empty-pool 404 check of line 1336, a clamped
meal count of 1, 2 or 3 builds its slot layout and then falls off the end
of the body with no response, and only the else-branch (clamped count at
least four) runs the rotation, the selection phases and the response
construction of `plan_success`. -/
def generate_plan (global_items : List MarketPriceItem) (egyptian_items : List EgyptianMeal)
    (custom_items : List UserCustomMeal) (include_custom : Bool)
    (user_recipes : List StudioRecipe) (req_target_calories : ℤ) (req_daily_budget : ℚ)
    (req_meals_count : ℤ) (last_plan_variant : ℤ)
    (sortB sortL sortD sortS sortSide : List Candidate → List Candidate)
    (chk : ℕ → List Candidate → List Candidate)
    (picks : List (String × Candidate)) : PlanOutcome :=
  let meals_count := max 1 (min 10 req_meals_count)
  if all_candidates (candidatePoolStage (max 1 req_daily_budget) global_items
      egyptian_items custom_items) = [] then
    PlanOutcome.notFound
  else if meals_count = 1 then PlanOutcome.noResponse
  else if meals_count = 2 then PlanOutcome.noResponse
  else if meals_count = 3 then PlanOutcome.noResponse
  else
    PlanOutcome.ok (plan_success global_items egyptian_items custom_items include_custom
      user_recipes req_target_calories req_daily_budget req_meals_count last_plan_variant
      sortB sortL sortD sortS sortSide chk picks)

/-- Composite meal with no recipe lines, for the empty-recipe scenario. -/
def emptyMeal : EgyptianMeal := ⟨5, "empty_meal", "Empty Meal", 300, []⟩

/-- Counted (per-piece) ingredient with base price 10. -/
def pieceIngredient : Ingredient := ⟨"eggs", "PIECE", 155, 13, 1, 11, 0, 10⟩

/-- Composite meal made entirely of a counted ingredient. -/
def pieceMeal : EgyptianMeal := ⟨6, "egg_plate", "Egg Plate", 200, [⟨pieceIngredient, 100⟩]⟩

/-- Mass-unit ingredient used by the linearity scenario. -/
def riceIngredient : Ingredient := ⟨"rice", "GRAM", 130, 27/10, 28, 3/10, 2/5, 10⟩

/-- Composite meal of 100 percent rice. -/
def riceMeal : EgyptianMeal := ⟨7, "plain_rice", "Plain White Rice", 200, [⟨riceIngredient, 100⟩]⟩

/-- Catalog item priced at 10 with 500 calories, classified into lunch. -/
def gmeat : MarketPriceItem := ⟨1, "meat dish", 500, 25, 10, "Lunch"⟩

/-- Candidate built from `gmeat`. -/
def cmeat : Candidate := ⟨CandId.db 1, "meat dish", 500, 25, 10, "global"⟩

/-- Catalog item with zero calories and price 30, classified into lunch. -/
def gmys : MarketPriceItem := ⟨2, "mystery dish", 0, 2, 30, "Lunch"⟩

/-- Candidate built from `gmys`. -/
def cmys : Candidate := ⟨CandId.db 2, "mystery dish", 0, 2, 30, "global"⟩

/-- Recipe Studio recipe of one counted ingredient: 500 calories and cost
100 per serving.  Recipe Studio candidates bypass the budget filter. -/
def studioBowl : StudioRecipe := ⟨7, "meat bowl", 1, [⟨1, ⟨"PIECE", 500, 20, 100⟩⟩]⟩

/-- Candidate built from `studioBowl`. -/
def cbowl : Candidate := ⟨CandId.studio 7, "meat bowl", 500, 20, 100, "custom"⟩

/-- Breakfast catalog item whose name carries the side keyword rice. -/
def gegg : MarketPriceItem := ⟨3, "fried egg rice", 200, 10, 5, "Breakfast"⟩

/-- Candidate built from `gegg`. -/
def cegg : Candidate := ⟨CandId.db 3, "fried egg rice", 200, 10, 5, "global"⟩

/-- Saved custom meal used by the zero-price scenario. -/
def customSample : UserCustomMeal := ⟨9, "my bowl", 450, 30⟩

/-- Identity shuffle: one realizable outcome of every random shuffle. -/
def idSort : List Candidate → List Candidate := fun l => l

/-- Identity check-pool shuffle for phase 2. -/
def idChk : ℕ → List Candidate → List Candidate := fun _ l => l

/-- Expected plan result for the four-meal single-item scenario with
budget 50. -/
def S2result : PlanResult :=
  ⟨[("breakfast", [cmeat]), ("snack_1", [cmeat]), ("lunch", [cmeat]), ("dinner", [cmeat])],
    40, 2000, 100, "", "Balanced (Standard)", 0⟩

/-- Expected plan result for the four-meal single-item scenario with
budget 15. -/
def S3result : PlanResult :=
  ⟨[("breakfast", []), ("snack_1", []), ("lunch", [cmeat]), ("dinner", [])],
    10, 500, 25, planWarningText, "Balanced (Standard)", 0⟩

/-- Expected plan result for the zero-calorie fallback scenario. -/
def CE1result : PlanResult :=
  ⟨[("snack_1", [cmys]), ("lunch", [cbowl]), ("dinner", [cbowl])],
    30, 0, 2, planWarningText, "Balanced (Standard)", 0⟩

/-- Round-half-even lands within half a unit of its argument. -/
lemma roundHalfEven_close (y : ℚ) : |(roundHalfEven y : ℚ) - y| ≤ 1/2 := by
  have hy : (⌊y⌋ : ℚ) = y - Int.fract y := (Int.self_sub_fract y).symm
  have hf0 : 0 ≤ Int.fract y := Int.fract_nonneg y
  have hf1 : Int.fract y < 1 := Int.fract_lt_one y
  unfold roundHalfEven
  split_ifs with h1 h2 h3
  · rw [abs_le]; constructor <;> linarith [hy]
  · rw [abs_le]; push_cast; constructor <;> linarith [hy]
  · have he : Int.fract y = 1/2 := le_antisymm (not_lt.mp h2) (not_lt.mp h1)
    rw [abs_le]; constructor <;> linarith [hy, he]
  · have he : Int.fract y = 1/2 := le_antisymm (not_lt.mp h2) (not_lt.mp h1)
    rw [abs_le]; push_cast; constructor <;> linarith [hy, he]

/-- Doubling the argument of the one-decimal quantization changes the
result by at most one tenth relative to doubling the result. -/
lemma quantize1_double (x : ℚ) : |quantize1 (2 * x) - 2 * quantize1 x| ≤ 1/10 := by
  have hA := roundHalfEven_close (10 * (2 * x))
  have hB := roundHalfEven_close (10 * x)
  unfold quantize1
  generalize hga : roundHalfEven (10 * (2 * x)) = a at hA ⊢
  generalize hgb : roundHalfEven (10 * x) = b at hB ⊢
  have key : |((a : ℚ)) - 2 * (b : ℚ)| ≤ 3/2 := by
    rw [abs_le] at hA hB ⊢
    constructor <;> linarith
  have key2 : |a - 2 * b| ≤ 1 := by
    have hcst : ((|a - 2 * b| : ℤ) : ℚ) ≤ 3/2 := by
      push_cast
      exact key
    by_contra hcon
    push_neg at hcon
    have h2q : ((2 : ℤ) : ℚ) ≤ ((|a - 2 * b| : ℤ) : ℚ) := by exact_mod_cast hcon
    norm_num at h2q
    linarith
  have hcast : ((|a - 2 * b| : ℤ) : ℚ) ≤ 1 := by exact_mod_cast key2
  push_cast at hcast
  rw [abs_le] at hcast ⊢
  constructor <;> linarith [hcast.1, hcast.2]

/-- Doubling the argument of the currency ceiling changes the result by at
most one whole unit relative to doubling the result. -/
lemma ceil_double (y : ℚ) : |((⌈2 * y⌉ : ℤ) : ℚ) - 2 * ((⌈y⌉ : ℤ) : ℚ)| ≤ 1 := by
  have hyy : (2 : ℚ) * y = y + y := by ring
  have h1 : ⌈2 * y⌉ ≤ ⌈y⌉ + ⌈y⌉ := by rw [hyy]; exact Int.ceil_add_le y y
  have h2 : ⌈y⌉ + ⌈y⌉ ≤ ⌈2 * y⌉ + 1 := by rw [hyy]; exact Int.ceil_add_ceil_le y y
  generalize hga : ⌈2 * y⌉ = a at h1 h2 ⊢
  generalize hgb : ⌈y⌉ = b at h1 h2 ⊢
  rw [abs_le]
  constructor
  · have hq : ((b : ℚ)) + (b : ℚ) ≤ (a : ℚ) + 1 := by exact_mod_cast h2
    linarith
  · have hq : ((a : ℚ)) ≤ (b : ℚ) + (b : ℚ) := by exact_mod_cast h1
    linarith

/-- Doubling the weight doubles every summed per-line quantity. -/
lemma sum_map_double (f g : MealRecipeItem → ℚ) (hfg : ∀ x, f x = 2 * g x) :
    ∀ l : List MealRecipeItem, (l.map f).sum = 2 * (l.map g).sum := by
  intro l
  induction l with
  | nil => simp
  | cons a as ih => simp only [List.map_cons, List.sum_cons, ih, hfg]; ring

/-- Pre-rounding nutrient totals are exactly linear in the weight. -/
lemma nutrientTotal_double (sel : MealRecipeItem → ℚ) (m : EgyptianMeal) (w : ℚ) :
    nutrientTotal sel m (2 * w) = 2 * nutrientTotal sel m w := by
  unfold nutrientTotal
  exact sum_map_double _ _ (fun x => by ring) m.recipe_items

/-- Per-line cost is exactly linear in the weight. -/
lemma recipeItemCost_double (w : ℚ) (item : MealRecipeItem) :
    recipeItemCost (2 * w) item = 2 * recipeItemCost w item := by
  unfold recipeItemCost
  split <;> ring

/-- Meal price at doubled weight is within one currency unit of twice the
price. -/
lemma get_price_double (m : EgyptianMeal) (w : ℚ) :
    |get_price m (some (2 * w)) - 2 * get_price m (some w)| ≤ 1 := by
  unfold get_price
  simp only [Option.getD_some]
  have hcost : (m.recipe_items.map (recipeItemCost (2 * w))).sum
      = 2 * (m.recipe_items.map (recipeItemCost w)).sum :=
    sum_map_double _ _ (recipeItemCost_double w) m.recipe_items
  rw [hcost]
  set mk : ℚ := if markup_keywords.any (fun k => strContains (lowerChars m.name_en) k)
    then (8 : ℚ)/5 else 11/5 with hmk
  have harg : 2 * (m.recipe_items.map (recipeItemCost w)).sum * mk
      = 2 * ((m.recipe_items.map (recipeItemCost w)).sum * mk) := by ring
  rw [harg]
  exact ceil_double _

/-- Claim C4, amended: calculate_nutrition on a composite meal with zero
recipe lines returns the all-zero nutrition record with price 0 instead of
failing; no InvalidRecipe error exists in the code. -/
theorem empty_recipe_returns_zero (m : EgyptianMeal) (w : Option ℚ)
    (h : m.recipe_items = []) :
    calculate_nutrition m w = ⟨0, 0, 0, 0, 0, 0⟩ := by
  have hq : quantize1 0 = 0 := by
    norm_num [quantize1, roundHalfEven, Int.fract]
  simp [calculate_nutrition, nutrientTotal, get_price, h, hq]

/-- Witness for C4 at a concrete empty-recipe meal and weight 300. -/
theorem empty_recipe_returns_zero_witness :
    emptyMeal.recipe_items = [] ∧
      calculate_nutrition emptyMeal (some 300) = ⟨0, 0, 0, 0, 0, 0⟩ :=
  ⟨rfl, empty_recipe_returns_zero emptyMeal (some 300) rfl⟩

/-- Counterexample for C4 as stated: on a zero-line meal the engine does
not fail, it returns a plain nutrition and price value (all zeros). -/
theorem empty_recipe_counterexample :
    calculate_nutrition emptyMeal (some 300) = ⟨0, 0, 0, 0, 0, 0⟩ ∧
      emptyMeal.recipe_items.length = 0 := by
  refine ⟨?_, rfl⟩
  have hq : quantize1 0 = 0 := by
    norm_num [quantize1, roundHalfEven, Int.fract]
  simp [calculate_nutrition, nutrientTotal, get_price, emptyMeal, hq]

/-- Claim C6, amended: in the price derivation every recipe line, counted
units included, is charged (ingredientWeight / 100) * basePrice; the
per-piece branch applies the same mass normalization. -/
theorem piece_cost_uses_mass_normalization (w : ℚ) (item : MealRecipeItem) :
    recipeItemCost w item = ((w * (item.percentage / 100)) / 100) * item.ingredient.base_price := by
  unfold recipeItemCost
  split <;> rfl

/-- Counterexample for C6 as stated: for a meal of one counted ingredient
(base price 10, 100 percent, weight 200) the source price is 44 while the
direct per-unit rule of the specification would give 4400. -/
theorem piece_cost_counterexample :
    get_price pieceMeal (some 200) = 44 ∧
      get_price_specPieceRule pieceMeal (some 200) = 4400 ∧
      get_price pieceMeal (some 200) ≠ get_price_specPieceRule pieceMeal (some 200) := by
  have hmk : (markup_keywords.any (fun k => strContains (lowerChars "Egg Plate") k)) = false := by
    decide
  have hpu : ¬ (("PIECE" : String) = "GRAM" ∨ ("PIECE" : String) = "ML") := by decide
  refine ⟨?_, ?_, ?_⟩ <;>
    norm_num [get_price, get_price_specPieceRule, recipeItemCost, pieceMeal,
      pieceIngredient, hmk, hpu]

/-- Claim C7: for a composite meal with at least one recipe line, doubling
the serving weight doubles every nutrient within the one-decimal rounding
tolerance and doubles the price within one whole currency unit of the
ceiling. -/
theorem nutrition_linearity (m : EgyptianMeal) (h : m.recipe_items ≠ []) (w : ℚ) :
    |(calculate_nutrition m (some (2 * w))).calories
        - 2 * (calculate_nutrition m (some w)).calories| ≤ 1/10 ∧
    |(calculate_nutrition m (some (2 * w))).protein
        - 2 * (calculate_nutrition m (some w)).protein| ≤ 1/10 ∧
    |(calculate_nutrition m (some (2 * w))).carbs
        - 2 * (calculate_nutrition m (some w)).carbs| ≤ 1/10 ∧
    |(calculate_nutrition m (some (2 * w))).fat
        - 2 * (calculate_nutrition m (some w)).fat| ≤ 1/10 ∧
    |(calculate_nutrition m (some (2 * w))).fiber
        - 2 * (calculate_nutrition m (some w)).fiber| ≤ 1/10 ∧
    |(calculate_nutrition m (some (2 * w))).price
        - 2 * (calculate_nutrition m (some w)).price| ≤ 1 := by
  refine ⟨?_, ?_, ?_, ?_, ?_, ?_⟩
  · simp only [calculate_nutrition, Option.getD_some, nutrientTotal_double]
    exact quantize1_double _
  · simp only [calculate_nutrition, Option.getD_some, nutrientTotal_double]
    exact quantize1_double _
  · simp only [calculate_nutrition, Option.getD_some, nutrientTotal_double]
    exact quantize1_double _
  · simp only [calculate_nutrition, Option.getD_some, nutrientTotal_double]
    exact quantize1_double _
  · simp only [calculate_nutrition, Option.getD_some, nutrientTotal_double]
    exact quantize1_double _
  · simp only [calculate_nutrition]
    exact get_price_double m w

/-- Witness for C7 at the rice meal and weight 100. -/
theorem nutrition_linearity_witness :
    riceMeal.recipe_items ≠ [] ∧
    (|(calculate_nutrition riceMeal (some (2 * 100))).calories
        - 2 * (calculate_nutrition riceMeal (some 100)).calories| ≤ 1/10 ∧
    |(calculate_nutrition riceMeal (some (2 * 100))).protein
        - 2 * (calculate_nutrition riceMeal (some 100)).protein| ≤ 1/10 ∧
    |(calculate_nutrition riceMeal (some (2 * 100))).carbs
        - 2 * (calculate_nutrition riceMeal (some 100)).carbs| ≤ 1/10 ∧
    |(calculate_nutrition riceMeal (some (2 * 100))).fat
        - 2 * (calculate_nutrition riceMeal (some 100)).fat| ≤ 1/10 ∧
    |(calculate_nutrition riceMeal (some (2 * 100))).fiber
        - 2 * (calculate_nutrition riceMeal (some 100)).fiber| ≤ 1/10 ∧
    |(calculate_nutrition riceMeal (some (2 * 100))).price
        - 2 * (calculate_nutrition riceMeal (some 100)).price| ≤ 1) :=
  ⟨by norm_num [riceMeal], nutrition_linearity riceMeal (by norm_num [riceMeal]) 100⟩

/-- Claim C9: with the fixed coefficient table, the rural localized price
never exceeds the metro localized price for a non-negative base price. -/
theorem location_monotonicity (p : ℚ) (hp : 0 ≤ p) :
    get_price_for_location p "rural" ≤ get_price_for_location p "metro" := by
  have hr : get_multiplier_for_category "rural" = 7/10 := rfl
  have hm : get_multiplier_for_category "metro" = 1 := rfl
  unfold get_price_for_location
  rw [hr, hm]
  nlinarith

/-- Witness for C9 at base price 10. -/
theorem location_monotonicity_witness :
    (0 : ℚ) ≤ 10 ∧
      get_price_for_location 10 "rural" ≤ get_price_for_location 10 "metro" :=
  ⟨by norm_num, location_monotonicity 10 (by norm_num)⟩

/-- Iterated rotation advances the stored index linearly modulo five. -/
lemma variantIter_formula (v : ℤ) : ∀ n : ℕ, variantIter v (n + 1) = (v + (n + 1)) % 5 := by
  intro n
  induction n with
  | zero => simp [variantIter, next_variant]
  | succ k ih =>
    show next_variant (variantIter v (k + 1)) = _
    rw [ih]
    unfold next_variant
    omega

/-- Starting from any stored rotation index, five consecutive applications
of `next_variant` visit the five strategies exactly once each (the visited
list is a permutation of STRATEGY_NAMES). -/
lemma strategiesVisited_perm (v : ℤ) :
    List.Perm (strategiesVisited v) STRATEGY_NAMES := by
  have hv : strategiesVisited v =
      [STRATEGY_NAMES.getD ((v + 1) % 5).toNat "",
       STRATEGY_NAMES.getD ((v + 2) % 5).toNat "",
       STRATEGY_NAMES.getD ((v + 3) % 5).toNat "",
       STRATEGY_NAMES.getD ((v + 4) % 5).toNat "",
       STRATEGY_NAMES.getD ((v + 5) % 5).toNat ""] := by
    have h0 := variantIter_formula v 0
    have h1 := variantIter_formula v 1
    have h2 := variantIter_formula v 2
    have h3 := variantIter_formula v 3
    have h4 := variantIter_formula v 4
    simp only [strategiesVisited, List.range_succ, List.range_zero, List.map_append,
      List.map_cons, List.map_nil, List.nil_append, List.cons_append]
    rw [h0, h1, h2, h3, h4]
    norm_num
  have hm : v % 5 = 0 ∨ v % 5 = 1 ∨ v % 5 = 2 ∨ v % 5 = 3 ∨ v % 5 = 4 := by omega
  rcases hm with h | h | h | h | h
  · have e1 : (v + 1) % 5 = 1 := by omega
    have e2 : (v + 2) % 5 = 2 := by omega
    have e3 : (v + 3) % 5 = 3 := by omega
    have e4 : (v + 4) % 5 = 4 := by omega
    have e5 : (v + 5) % 5 = 0 := by omega
    rw [hv, e1, e2, e3, e4, e5]; decide
  · have e1 : (v + 1) % 5 = 2 := by omega
    have e2 : (v + 2) % 5 = 3 := by omega
    have e3 : (v + 3) % 5 = 4 := by omega
    have e4 : (v + 4) % 5 = 0 := by omega
    have e5 : (v + 5) % 5 = 1 := by omega
    rw [hv, e1, e2, e3, e4, e5]; decide
  · have e1 : (v + 1) % 5 = 3 := by omega
    have e2 : (v + 2) % 5 = 4 := by omega
    have e3 : (v + 3) % 5 = 0 := by omega
    have e4 : (v + 4) % 5 = 1 := by omega
    have e5 : (v + 5) % 5 = 2 := by omega
    rw [hv, e1, e2, e3, e4, e5]; decide
  · have e1 : (v + 1) % 5 = 4 := by omega
    have e2 : (v + 2) % 5 = 0 := by omega
    have e3 : (v + 3) % 5 = 1 := by omega
    have e4 : (v + 4) % 5 = 2 := by omega
    have e5 : (v + 5) % 5 = 3 := by omega
    rw [hv, e1, e2, e3, e4, e5]; decide
  · have e1 : (v + 1) % 5 = 0 := by omega
    have e2 : (v + 2) % 5 = 1 := by omega
    have e3 : (v + 3) % 5 = 2 := by omega
    have e4 : (v + 4) % 5 = 3 := by omega
    have e5 : (v + 5) % 5 = 4 := by omega
    rw [hv, e1, e2, e3, e4, e5]; decide

/-- Lookup succeeds exactly on stored labels. -/
lemma lookup_isSome_iff (p : Plan) (k : String) :
    (List.lookup k p).isSome ↔ k ∈ planKeys p := by
  induction p with
  | nil => simp [planKeys]
  | cons e rest ih =>
    by_cases h : k = e.1
    · simp [List.lookup, planKeys, h]
    · have hne : (k == e.1) = false := by simp [h]
      simp [List.lookup, planKeys, hne, h, ih]

/-- Lookup over an append falls through to the right part when the left
part misses. -/
lemma lookup_append_none (p q : Plan) (k : String) (h : List.lookup k p = none) :
    List.lookup k (p ++ q) = List.lookup k q := by
  induction p with
  | nil => simp
  | cons e rest ih =>
    by_cases he : k = e.1
    · simp [List.lookup, he] at h
    · have hne : (k == e.1) = false := by simp [he]
      simp only [List.lookup, hne, List.cons_append] at h ⊢
      exact ih h

/-- Lookup over an append stays in the left part when it hits there. -/
lemma lookup_append_isSome (p q : Plan) (k : String) (h : (List.lookup k p).isSome) :
    List.lookup k (p ++ q) = List.lookup k p := by
  induction p with
  | nil => simp at h
  | cons e rest ih =>
    by_cases he : k = e.1
    · simp [List.lookup, he]
    · have hne : (k == e.1) = false := by simp [he]
      simp only [List.lookup, hne, List.cons_append] at h ⊢
      exact ih h

/-- A successful lookup yields a stored entry. -/
lemma lookup_some_mem (p : Plan) (k : String) (w : List Candidate)
    (h : List.lookup k p = some w) : (k, w) ∈ p := by
  induction p with
  | nil => simp [List.lookup] at h
  | cons e rest ih =>
    by_cases he : k = e.1
    · simp only [List.lookup, he, beq_self_eq_true, Option.some.injEq] at h
      have hkw : (k, w) = e := by
        rw [he, ← h]
      rw [List.mem_cons]
      exact Or.inl hkw
    · have hne : (k == e.1) = false := by simp [he]
      simp only [List.lookup, hne] at h
      rw [List.mem_cons]
      exact Or.inr (ih h)

/-- planSet keeps the label sequence. -/
lemma planSet_keys (p : Plan) (k : String) (v : List Candidate) :
    planKeys (planSet p k v) = planKeys p := by
  induction p with
  | nil => rfl
  | cons e rest ih =>
    by_cases h : e.1 = k <;> simp [planSet, planKeys, h] <;>
      simpa [planSet, planKeys] using ih

/-- planSet keeps lookup success on every label. -/
lemma planSet_lookup_isSome (p : Plan) (k : String) (v : List Candidate) (n : String) :
    (List.lookup n (planSet p k v)).isSome ↔ (List.lookup n p).isSome := by
  rw [lookup_isSome_iff, lookup_isSome_iff, planSet_keys]

/-- planSet is the identity when the label is absent. -/
lemma planSet_of_not_mem (p : Plan) (k : String) (v : List Candidate)
    (h : k ∉ planKeys p) : planSet p k v = p := by
  induction p with
  | nil => rfl
  | cons e rest ih =>
    simp only [planKeys, List.map_cons, List.mem_cons, not_or] at h
    have he : e.1 ≠ k := fun hc => h.1 hc.symm
    simp only [planSet, List.map_cons, if_neg he]
    have := ih (by simpa [planKeys] using h.2)
    simpa [planSet] using this

/-- Entries of planSet are old entries or carry the new value. -/
lemma planSet_mem (p : Plan) (k : String) (v : List Candidate) (e : String × List Candidate)
    (h : e ∈ planSet p k v) : e ∈ p ∨ e.2 = v := by
  induction p with
  | nil => simp [planSet] at h
  | cons a rest ih =>
    simp only [planSet, List.map_cons, List.mem_cons] at h
    rcases h with h | h
    · by_cases ha : a.1 = k
      · rw [if_pos ha] at h
        right
        rw [h]
      · rw [if_neg ha] at h
        left
        simp [h]
    · rcases ih (by simpa [planSet] using h) with h2 | h2
      · left
        simp [h2]
      · right
        exact h2

/-- planPriceSum splits off the head entry. -/
lemma planPriceSum_cons (e : String × List Candidate) (rest : Plan) :
    planPriceSum (e :: rest) = priceSum e.2 + planPriceSum rest := by
  simp [planPriceSum]

/-- planSet unfolds over a cons cell. -/
lemma planSet_cons (e : String × List Candidate) (rest : Plan) (k : String)
    (v : List Candidate) :
    planSet (e :: rest) k v = (if e.1 = k then (e.1, v) else e) :: planSet rest k v := rfl

/-- Price bookkeeping of planSet under a hit on distinct labels. -/
lemma planPriceSum_planSet (p : Plan) (k : String) (v w : List Candidate)
    (hnd : (planKeys p).Nodup) (hs : List.lookup k p = some w) :
    planPriceSum (planSet p k v) = planPriceSum p - priceSum w + priceSum v := by
  induction p with
  | nil => simp [List.lookup] at hs
  | cons e rest ih =>
    simp only [planKeys, List.map_cons, List.nodup_cons] at hnd
    rw [planSet_cons]
    by_cases he : k = e.1
    · simp only [List.lookup, he, beq_self_eq_true, Option.some.injEq] at hs
      have hrest : planSet rest k v = rest := by
        apply planSet_of_not_mem
        simp only [planKeys]
        rw [he]
        exact hnd.1
      rw [if_pos he.symm, hrest, planPriceSum_cons, planPriceSum_cons, ← hs]
      ring
    · have hne : (k == e.1) = false := by simp [he]
      simp only [List.lookup, hne] at hs
      have hee : e.1 ≠ k := fun hc => he hc.symm
      rw [if_neg hee, planPriceSum_cons, planPriceSum_cons, ih hnd.2 hs]
      ring

/-- planInitFrom only appends entries carrying the empty selection. -/
lemma planInitFrom_append (l : List Slot) :
    ∀ acc : Plan, ∃ ext : Plan, planInitFrom acc l = acc ++ ext ∧
      ∀ e ∈ ext, e.2 = ([] : List Candidate) := by
  induction l with
  | nil => exact fun acc => ⟨[], by simp [planInitFrom]⟩
  | cons s rest ih =>
    intro acc
    by_cases h : (List.lookup s.name acc).isSome
    · obtain ⟨ext, he, hz⟩ := ih acc
      refine ⟨ext, ?_, hz⟩
      simp only [planInitFrom, if_pos h]
      exact he
    · obtain ⟨ext, he, hz⟩ := ih (acc ++ [(s.name, [])])
      refine ⟨(s.name, []) :: ext, ?_, ?_⟩
      · simp only [planInitFrom, if_neg h]
        rw [he, List.append_assoc]
        rfl
      · intro e hme
        rcases List.mem_cons.mp hme with h2 | h2
        · rw [h2]
        · exact hz e h2

/-- Every entry of the initial plan carries the empty selection. -/
lemma planInit_entries_nil (slots : List Slot) :
    ∀ e ∈ planInit slots, e.2 = ([] : List Candidate) := by
  obtain ⟨ext, he, hz⟩ := planInitFrom_append slots []
  intro e hme
  rw [planInit, he] at hme
  exact hz e (by simpa using hme)

/-- Price total of the initial plan is zero. -/
lemma planPriceSum_of_entries_nil (p : Plan) (h : ∀ e ∈ p, e.2 = ([] : List Candidate)) :
    planPriceSum p = 0 := by
  induction p with
  | nil => rfl
  | cons e rest ih =>
    rw [planPriceSum_cons, h e (by simp), ih (fun x hx => h x (by simp [hx]))]
    simp [priceSum]

/-- planInitFrom keeps every lookup that already succeeds. -/
lemma planInitFrom_lookup_mono (l : List Slot) :
    ∀ (acc : Plan) (k : String), (List.lookup k acc).isSome →
      (List.lookup k (planInitFrom acc l)).isSome := by
  induction l with
  | nil => intro acc k h; simpa [planInitFrom] using h
  | cons s rest ih =>
    intro acc k h
    by_cases hl : (List.lookup s.name acc).isSome
    · simpa only [planInitFrom, if_pos hl] using ih acc k h
    · simp only [planInitFrom, if_neg hl]
      apply ih
      rw [lookup_append_isSome _ _ _ h]
      exact h

/-- planInitFrom makes lookup succeed for every listed slot name. -/
lemma planInitFrom_covers (l : List Slot) :
    ∀ (acc : Plan) (s : Slot), s ∈ l →
      (List.lookup s.name (planInitFrom acc l)).isSome := by
  induction l with
  | nil => intro _ _ h; simp at h
  | cons s0 rest ih =>
    intro acc s hs
    rcases List.mem_cons.mp hs with h | h
    · by_cases hl : (List.lookup s0.name acc).isSome
      · simp only [planInitFrom, if_pos hl]
        exact planInitFrom_lookup_mono rest acc s.name (by rw [h]; exact hl)
      · simp only [planInitFrom, if_neg hl]
        apply planInitFrom_lookup_mono
        rw [h]
        cases hcase : List.lookup s0.name acc with
        | some v => exact absurd (by simp [hcase]) hl
        | none =>
          rw [lookup_append_none _ _ _ hcase]
          simp [List.lookup]
    · by_cases hl : (List.lookup s0.name acc).isSome
      · simp only [planInitFrom, if_pos hl]
        exact ih acc s h
      · simp only [planInitFrom, if_neg hl]
        exact ih _ s h

/-- planInitFrom keeps the label sequence duplicate-free. -/
lemma planInitFrom_keys_nodup (l : List Slot) :
    ∀ acc : Plan, (planKeys acc).Nodup → (planKeys (planInitFrom acc l)).Nodup := by
  induction l with
  | nil => intro acc h; simpa [planInitFrom] using h
  | cons s rest ih =>
    intro acc h
    by_cases hl : (List.lookup s.name acc).isSome
    · simpa only [planInitFrom, if_pos hl] using ih acc h
    · simp only [planInitFrom, if_neg hl]
      apply ih
      have hnm : s.name ∉ planKeys acc := by
        rw [← lookup_isSome_iff]
        simpa using hl
      have hk : planKeys (acc ++ [(s.name, [])]) = planKeys acc ++ [s.name] := by
        simp [planKeys]
      rw [hk, List.nodup_append]
      refine ⟨h, List.nodup_singleton _, ?_⟩
      intro a ha hmem
      rw [List.mem_singleton] at hmem
      exact hnm (hmem ▸ ha)

/-- Keys of the initial plan are duplicate-free. -/
lemma planInit_keys_nodup (slots : List Slot) : (planKeys (planInit slots)).Nodup :=
  planInitFrom_keys_nodup slots [] (by simp [planKeys])

/-- The initial plan covers every slot name. -/
lemma planInit_covers (slots : List Slot) (s : Slot) (h : s ∈ slots) :
    (List.lookup s.name (planInit slots)).isSome :=
  planInitFrom_covers slots [] s h

/-- Stable descending insertion permutes a cons. -/
lemma insertSlotDesc_perm (c : Slot) (l : List Slot) :
    List.Perm (insertSlotDesc c l) (c :: l) := by
  induction l with
  | nil => exact List.Perm.refl _
  | cons x xs ih =>
    by_cases h : c.pct ≤ x.pct
    · simp only [insertSlotDesc, if_pos h]
      exact (ih.cons x).trans (List.Perm.swap c x xs)
    · simp only [insertSlotDesc, if_neg h]
      exact List.Perm.refl _

/-- The sorted slot list is a permutation of the slot list. -/
lemma sorted_slots_perm (slots : List Slot) : List.Perm (sorted_slots slots) slots := by
  suffices h : ∀ acc : List Slot,
      List.Perm (slots.foldl (fun acc c => insertSlotDesc c acc) acc) (acc ++ slots) by
    simpa using h []
  induction slots with
  | nil => intro acc; simp
  | cons s rest ih =>
    intro acc
    have h1 := ih (insertSlotDesc s acc)
    have h2 : List.Perm (insertSlotDesc s acc ++ rest) ((s :: acc) ++ rest) :=
      (insertSlotDesc_perm s acc).append_right rest
    have h3 : List.Perm ((s :: acc) ++ rest) (acc ++ s :: rest) := by
      simpa using List.perm_middle.symm
    exact (h1.trans h2).trans h3

/-- priceSum over an appended singleton. -/
lemma priceSum_append_single (l : List Candidate) (c : Candidate) :
    priceSum (l ++ [c]) = priceSum l + c.price := by
  simp [priceSum]

/-- priceSum over the three-part split used by the upgrade walk. -/
lemma priceSum_middle (pre rest : List Candidate) (x : Candidate) :
    priceSum (pre ++ x :: rest) = priceSum pre + x.price + priceSum rest := by
  simp [priceSum]
  ring

/-- Name distinctness transfers along a middle replacement whose new name
is fresh for the whole list. -/
lemma namesNodup_replace_middle (pre rest : List Candidate) (cur best : Candidate)
    (hnd : namesNodup (pre ++ cur :: rest))
    (hfresh : ∀ m ∈ pre ++ cur :: rest, m.name ≠ best.name) :
    namesNodup (pre ++ best :: rest) := by
  unfold namesNodup at hnd ⊢
  rw [List.map_append, List.map_cons] at hnd ⊢
  rw [List.nodup_middle] at hnd ⊢
  rcases List.nodup_cons.mp hnd with ⟨hcur, hrest⟩
  rw [List.nodup_cons]
  constructor
  · intro hmem
    rw [← List.map_append] at hmem
    obtain ⟨m, hm, hname⟩ := List.mem_map.mp hmem
    have : m ∈ pre ++ cur :: rest := by
      rcases List.mem_append.mp hm with h | h
      · exact List.mem_append.mpr (Or.inl h)
      · exact List.mem_append.mpr (Or.inr (List.mem_cons_of_mem cur h))
    exact hfresh m this hname
  · exact hrest

/-- A selection with an appended fresh name stays duplicate-free. -/
lemma namesNodup_append_single (l : List Candidate) (c : Candidate)
    (hnd : namesNodup l) (hfresh : ∀ m ∈ l, m.name ≠ c.name) :
    namesNodup (l ++ [c]) := by
  unfold namesNodup at hnd ⊢
  rw [List.map_append]
  rw [List.nodup_append]
  refine ⟨hnd, by simp, ?_⟩
  intro a ha
  simp only [List.map_cons, List.map_nil, List.mem_singleton]
  obtain ⟨m, hm, hname⟩ := List.mem_map.mp ha
  intro hcontra
  exact hfresh m hm (by rw [hname, hcontra])

/-- Phase-1 slot walk: the price delta of the totals equals the price
delta of the selection, the budget bound is preserved, and distinctness of
names within the slot is preserved. -/
lemma phase1Slot_spec (B : ℚ) (tgt : ℤ) :
    ∀ (pool sel : List Candidate) (t : OptTotals) (sc : ℤ),
      (phase1Slot B tgt pool sel t sc).2.total_price + priceSum sel
          = t.total_price + priceSum (phase1Slot B tgt pool sel t sc).1 ∧
      (t.total_price ≤ B → (phase1Slot B tgt pool sel t sc).2.total_price ≤ B) ∧
      (namesNodup sel → namesNodup (phase1Slot B tgt pool sel t sc).1) := by
  intro pool
  induction pool with
  | nil =>
    intro sel t sc
    simp only [phase1Slot]
    exact ⟨by ring, fun h => h, fun h => h⟩
  | cons c rest ih =>
    intro sel t sc
    simp only [phase1Slot]
    split_ifs with h1 h2 h3
    · exact ih sel t sc
    · exact ih sel t sc
    · obtain ⟨ha, hb, hc⟩ := ih (sel ++ [c])
        ⟨t.total_price + c.price, t.total_cals + c.calories, t.total_prot + c.protein⟩
        (sc + c.calories)
      dsimp only at ha hb hc
      rw [priceSum_append_single] at ha
      refine ⟨by linarith [ha], fun hble => ?_, fun hnd => ?_⟩
      · apply hb
        push_neg at h2
        exact h2
      · apply hc
        apply namesNodup_append_single sel c hnd
        intro m hm hceq
        exact h1 (by
          simp only [List.any_eq_true, decide_eq_true_eq]
          exact ⟨m, hm, hceq⟩)
    · exact ⟨by ring, fun h => h, fun h => h⟩

/-- Phase 1 preserves the plan shape, ties the stored selections to the
running totals, keeps the budget bound and keeps slot-level name
distinctness. -/
lemma phase1_spec (B : ℚ) (tgt : ℤ) (allC : List Candidate) :
    ∀ (slots : List Slot) (plan : Plan) (t : OptTotals),
      (planKeys plan).Nodup →
      planPriceSum plan = t.total_price →
      t.total_price ≤ B →
      (∀ s ∈ slots, (List.lookup s.name plan).isSome) →
      (∀ e ∈ plan, namesNodup e.2) →
      planKeys (phase1 B tgt allC slots plan t).1 = planKeys plan ∧
      planPriceSum (phase1 B tgt allC slots plan t).1
          = (phase1 B tgt allC slots plan t).2.total_price ∧
      (phase1 B tgt allC slots plan t).2.total_price ≤ B ∧
      (∀ e ∈ (phase1 B tgt allC slots plan t).1, namesNodup e.2) := by
  intro slots
  induction slots with
  | nil =>
    intro plan t _ h2 h3 _ h5
    exact ⟨rfl, h2, h3, h5⟩
  | cons s rest ih =>
    intro plan t hkeys hsum hble hcov hvals
    obtain ⟨w, hw⟩ := Option.isSome_iff_exists.mp (hcov s (by simp))
    have hgw : planGet plan s.name = w := by simp [planGet, hw]
    simp only [phase1, hgw]
    obtain ⟨ha, hb, hc⟩ := phase1Slot_spec B (slotCalTarget tgt s)
      (if s.pool = [] then allC else s.pool) w t 0
    set r := phase1Slot B (slotCalTarget tgt s)
      (if s.pool = [] then allC else s.pool) w t 0 with hr
    have hwnd : namesNodup w := hvals (s.name, w) (lookup_some_mem _ _ _ hw)
    have hkeys2 : (planKeys (planSet plan s.name r.1)).Nodup := by
      rw [planSet_keys]; exact hkeys
    have hsum2 : planPriceSum (planSet plan s.name r.1) = r.2.total_price := by
      rw [planPriceSum_planSet plan s.name r.1 w hkeys hw, hsum]
      linarith [ha]
    have hble2 : r.2.total_price ≤ B := hb hble
    have hcov2 : ∀ s2 ∈ rest, (List.lookup s2.name (planSet plan s.name r.1)).isSome := by
      intro s2 hs2
      rw [planSet_lookup_isSome]
      exact hcov s2 (by simp [hs2])
    have hvals2 : ∀ e ∈ planSet plan s.name r.1, namesNodup e.2 := by
      intro e he
      rcases planSet_mem _ _ _ _ he with h | h
      · exact hvals e h
      · rw [h]; exact hc hwnd
    obtain ⟨k1, k2, k3, k4⟩ := ih (planSet plan s.name r.1) r.2 hkeys2 hsum2 hble2 hcov2 hvals2
    refine ⟨?_, k2, k3, k4⟩
    rw [k1, planSet_keys]

/-- The upgrade scan only returns candidates with a positive price delta
within the remaining budget whose name is fresh for the selection. -/
lemma findUpgrade_spec (cur : Candidate) (sel : List Candidate) (remaining : ℚ) :
    ∀ (cp : List Candidate) (best : Option Candidate) (g : ℚ),
      (∀ c, best = some c →
        0 < c.price - cur.price ∧ c.price - cur.price ≤ remaining ∧
          ∀ m ∈ sel, m.name ≠ c.name) →
      ∀ c, findUpgrade cur sel remaining cp best g = some c →
        0 < c.price - cur.price ∧ c.price - cur.price ≤ remaining ∧
          ∀ m ∈ sel, m.name ≠ c.name := by
  intro cp
  induction cp with
  | nil =>
    intro best g hbest c h
    exact hbest c (by simpa [findUpgrade] using h)
  | cons d rest ih =>
    intro best g hbest c h
    simp only [findUpgrade] at h
    split_ifs at h with h1 h2 h3 h4
    · exact ih best g hbest c h
    · refine ih (some d) (d.protein - cur.protein) ?_ c h
      intro c2 hc2
      rw [Option.some.injEq] at hc2
      subst hc2
      refine ⟨h2.1, h2.2, ?_⟩
      intro m hm hceq
      exact h1 (by
        simp only [List.any_eq_true, decide_eq_true_eq]
        exact ⟨m, hm, hceq⟩)
    · refine ih (some d) g ?_ c h
      intro c2 hc2
      rw [Option.some.injEq] at hc2
      subst hc2
      refine ⟨h2.1, h2.2, ?_⟩
      intro m hm hceq
      exact h1 (by
        simp only [List.any_eq_true, decide_eq_true_eq]
        exact ⟨m, hm, hceq⟩)
    · exact ih best g hbest c h
    · exact ih best g hbest c h

/-- The phase-2 walk keeps the remaining-budget relation, the budget
bound, name distinctness of the slot selection, and ties the price delta
of the totals to the price delta of the selection. -/
lemma upgradeWalk_spec (chk : ℕ → List Candidate → List Candidate)
    (effPool : List Candidate) (B : ℚ) :
    ∀ (suf pre : List Candidate) (remaining : ℚ) (t : OptTotals) (k : ℕ),
      remaining = B - t.total_price →
      t.total_price ≤ B →
      namesNodup (pre ++ suf) →
      (upgradeWalk chk effPool suf pre remaining t k).remaining
          = B - (upgradeWalk chk effPool suf pre remaining t k).t.total_price ∧
      (upgradeWalk chk effPool suf pre remaining t k).t.total_price ≤ B ∧
      namesNodup (upgradeWalk chk effPool suf pre remaining t k).sel ∧
      (upgradeWalk chk effPool suf pre remaining t k).t.total_price
          + priceSum (pre ++ suf)
          = t.total_price + priceSum (upgradeWalk chk effPool suf pre remaining t k).sel := by
  intro suf
  induction suf with
  | nil =>
    intro pre remaining t k h1 h2 h3
    simp only [upgradeWalk]
    refine ⟨h1, h2, by simpa using h3, by simp⟩
  | cons cur rest ih =>
    intro pre remaining t k h1 h2 h3
    simp only [upgradeWalk]
    cases hfu : findUpgrade cur (pre ++ cur :: rest) remaining
        (chk k (effPool.take 50)) none 0 with
    | none =>
      have hlist : (pre ++ [cur]) ++ rest = pre ++ cur :: rest := by simp
      have h3b : namesNodup ((pre ++ [cur]) ++ rest) := by rw [hlist]; exact h3
      obtain ⟨k1, k2, k3, k4⟩ := ih (pre ++ [cur]) remaining t (k + 1) h1 h2 h3b
      rw [hlist] at k4
      exact ⟨k1, k2, k3, k4⟩
    | some best =>
      obtain ⟨hpd, hrem, hfresh⟩ := findUpgrade_spec cur (pre ++ cur :: rest) remaining
        (chk k (effPool.take 50)) none 0 (by intro c hc; simp at hc) best hfu
      have h1b : remaining - (best.price - cur.price)
          = B - (t.total_price + (best.price - cur.price)) := by linarith
      have h2b : t.total_price + (best.price - cur.price) ≤ B := by linarith
      have hmid : namesNodup (pre ++ best :: rest) :=
        namesNodup_replace_middle pre rest cur best h3 hfresh
      have hlist : (pre ++ [best]) ++ rest = pre ++ best :: rest := by simp
      have h3b : namesNodup ((pre ++ [best]) ++ rest) := by rw [hlist]; exact hmid
      obtain ⟨k1, k2, k3, k4⟩ := ih (pre ++ [best]) (remaining - (best.price - cur.price))
        ⟨t.total_price + (best.price - cur.price),
          t.total_cals + (best.calories - cur.calories),
          t.total_prot + (best.protein - cur.protein)⟩ (k + 1) h1b h2b h3b
      rw [hlist] at k4
      refine ⟨k1, k2, k3, ?_⟩
      rw [priceSum_middle] at k4 ⊢
      simp only at k4
      linarith [k4]

/-- One phase-2 pass preserves the plan shape, the remaining-budget
relation, the budget bound and slot-level name distinctness. -/
lemma phase2Pass_spec (chk : ℕ → List Candidate → List Candidate) (allC : List Candidate)
    (B : ℚ) :
    ∀ (slots : List Slot) (st : OptState),
      (planKeys st.plan).Nodup →
      planPriceSum st.plan = st.t.total_price →
      st.t.total_price ≤ B →
      st.remaining = B - st.t.total_price →
      (∀ e ∈ st.plan, namesNodup e.2) →
      planKeys (phase2Pass chk allC slots st).plan = planKeys st.plan ∧
      planPriceSum (phase2Pass chk allC slots st).plan
          = (phase2Pass chk allC slots st).t.total_price ∧
      (phase2Pass chk allC slots st).t.total_price ≤ B ∧
      (phase2Pass chk allC slots st).remaining
          = B - (phase2Pass chk allC slots st).t.total_price ∧
      (∀ e ∈ (phase2Pass chk allC slots st).plan, namesNodup e.2) := by
  intro slots
  induction slots with
  | nil =>
    intro st h1 h2 h3 h4 h5
    exact ⟨rfl, h2, h3, h4, h5⟩
  | cons s rest ih =>
    intro st hkeys hsum hble hrem hvals
    simp only [phase2Pass]
    cases hcase : List.lookup s.name st.plan with
    | none =>
      have hget : planGet st.plan s.name = [] := by simp [planGet, hcase]
      have hset : planSet st.plan s.name
          (upgradeWalk chk (if s.pool = [] then allC else s.pool)
            (planGet st.plan s.name) [] st.remaining st.t st.k).sel = st.plan := by
        apply planSet_of_not_mem
        rw [← lookup_isSome_iff, hcase]
        simp
      have hwalk : upgradeWalk chk (if s.pool = [] then allC else s.pool)
          (planGet st.plan s.name) [] st.remaining st.t st.k
          = ⟨[], st.remaining, st.t, st.k⟩ := by
        rw [hget]
        rfl
      rw [hset, hwalk]
      exact ih ⟨st.plan, st.remaining, st.t, st.k⟩ hkeys hsum hble hrem hvals
    | some w =>
      have hget : planGet st.plan s.name = w := by simp [planGet, hcase]
      rw [hget]
      have hwnd : namesNodup w := hvals (s.name, w) (lookup_some_mem _ _ _ hcase)
      obtain ⟨k1, k2, k3, k4⟩ := upgradeWalk_spec chk (if s.pool = [] then allC else s.pool)
        B w [] st.remaining st.t st.k hrem hble (by simpa using hwnd)
      set wres := upgradeWalk chk (if s.pool = [] then allC else s.pool) w []
        st.remaining st.t st.k with hwres
      simp only [List.nil_append] at k4
      have hkeys2 : (planKeys (planSet st.plan s.name wres.sel)).Nodup := by
        rw [planSet_keys]; exact hkeys
      have hsum2 : planPriceSum (planSet st.plan s.name wres.sel) = wres.t.total_price := by
        rw [planPriceSum_planSet st.plan s.name wres.sel w hkeys hcase, hsum]
        linarith [k4]
      have hvals2 : ∀ e ∈ planSet st.plan s.name wres.sel, namesNodup e.2 := by
        intro e he
        rcases planSet_mem _ _ _ _ he with h | h
        · exact hvals e h
        · rw [h]; exact k3
      obtain ⟨m1, m2, m3, m4, m5⟩ := ih ⟨planSet st.plan s.name wres.sel,
        wres.remaining, wres.t, wres.k⟩ hkeys2 hsum2 k2 k1 hvals2
      refine ⟨?_, m2, m3, m4, m5⟩
      rw [m1]
      exact planSet_keys _ _ _

/-- Phase 2 preserves the plan shape, the budget bound, the
remaining-budget relation and slot-level name distinctness. -/
lemma phase2_spec (chk : ℕ → List Candidate → List Candidate) (allC : List Candidate)
    (slots : List Slot) (B : ℚ) (plan : Plan) (t : OptTotals)
    (hkeys : (planKeys plan).Nodup)
    (hsum : planPriceSum plan = t.total_price)
    (hble : t.total_price ≤ B)
    (hvals : ∀ e ∈ plan, namesNodup e.2) :
    planKeys (phase2 chk allC slots B plan t).plan = planKeys plan ∧
    planPriceSum (phase2 chk allC slots B plan t).plan
        = (phase2 chk allC slots B plan t).t.total_price ∧
    (phase2 chk allC slots B plan t).t.total_price ≤ B ∧
    (phase2 chk allC slots B plan t).remaining
        = B - (phase2 chk allC slots B plan t).t.total_price ∧
    (∀ e ∈ (phase2 chk allC slots B plan t).plan, namesNodup e.2) := by
  unfold phase2
  dsimp only
  split_ifs with h
  · obtain ⟨a1, a2, a3, a4, a5⟩ := phase2Pass_spec chk allC B slots
      ⟨plan, B - t.total_price, t, 0⟩ hkeys hsum hble rfl hvals
    obtain ⟨b1, b2, b3, b4, b5⟩ := phase2Pass_spec chk allC B slots _ (by
        rw [a1]; exact hkeys) a2 a3 a4 a5
    obtain ⟨c1, c2, c3, c4, c5⟩ := phase2Pass_spec chk allC B slots _ (by
        rw [b1, a1]; exact hkeys) b2 b3 b4 b5
    exact ⟨by rw [c1, b1, a1], c2, c3, c4, c5⟩
  · exact ⟨rfl, hsum, hble, rfl, hvals⟩

/-- The phase-3 loop preserves the plan shape, the budget bound, the
remaining-budget relation and slot-level name distinctness. -/
lemma phase3Loop_spec (B : ℚ) :
    ∀ (fuel : ℕ) (picks : List (String × Candidate)) (plan : Plan) (remaining : ℚ)
      (t : OptTotals),
      (planKeys plan).Nodup →
      planPriceSum plan = t.total_price →
      t.total_price ≤ B →
      remaining = B - t.total_price →
      (∀ e ∈ plan, namesNodup e.2) →
      planKeys (phase3Loop fuel picks plan remaining t).1 = planKeys plan ∧
      planPriceSum (phase3Loop fuel picks plan remaining t).1
          = (phase3Loop fuel picks plan remaining t).2.2.total_price ∧
      (phase3Loop fuel picks plan remaining t).2.2.total_price ≤ B ∧
      (∀ e ∈ (phase3Loop fuel picks plan remaining t).1, namesNodup e.2) := by
  intro fuel
  induction fuel with
  | zero =>
    intro picks plan remaining t h1 h2 h3 h4 h5
    exact ⟨rfl, h2, h3, h5⟩
  | succ n ih =>
    intro picks plan remaining t hkeys hsum hble hrem hvals
    cases picks with
    | nil => exact ⟨rfl, hsum, hble, hvals⟩
    | cons pk rest =>
      obtain ⟨sn, side⟩ := pk
      simp only [phase3Loop]
      by_cases h0 : remaining ≤ 0
      · rw [if_pos h0]
        exact ⟨rfl, hsum, hble, hvals⟩
      · rw [if_neg h0]
        cases hcase : List.lookup sn plan with
        | none =>
          dsimp only
          exact ih rest plan remaining t hkeys hsum hble hrem hvals
        | some sel =>
          dsimp only
          have hselnd : namesNodup sel := hvals (sn, sel) (lookup_some_mem _ _ _ hcase)
          split_ifs with hdup hfits
          · exact ih rest plan remaining t hkeys hsum hble hrem hvals
          · have hkeys2 : (planKeys (planSet plan sn (sel ++ [side]))).Nodup := by
              rw [planSet_keys]; exact hkeys
            have hsum2 : planPriceSum (planSet plan sn (sel ++ [side]))
                = t.total_price + side.price := by
              rw [planPriceSum_planSet plan sn (sel ++ [side]) sel hkeys hcase, hsum,
                priceSum_append_single]
              ring
            have hble2 : t.total_price + side.price ≤ B := by
              have : 0 < remaining := lt_of_not_le h0
              linarith
            have hvals2 : ∀ e ∈ planSet plan sn (sel ++ [side]), namesNodup e.2 := by
              intro e he
              rcases planSet_mem _ _ _ _ he with h | h
              · exact hvals e h
              · rw [h]
                apply namesNodup_append_single sel side hselnd
                intro m hm hceq
                exact hdup (by
                  simp only [List.any_eq_true, decide_eq_true_eq]
                  exact ⟨m, hm, hceq⟩)
            obtain ⟨m1, m2, m3, m4⟩ := ih rest (planSet plan sn (sel ++ [side]))
              (remaining - side.price)
              ⟨t.total_price + side.price, t.total_cals + side.calories,
                t.total_prot + side.protein⟩
              hkeys2 (by dsimp only; exact hsum2) (by dsimp only; exact hble2)
              (by dsimp only; linarith) hvals2
            refine ⟨?_, m2, m3, m4⟩
            rw [m1]
            exact planSet_keys _ _ _
          · exact ih rest plan remaining t hkeys hsum hble hrem hvals

/-- Phase 3 preserves the plan shape, the budget bound and slot-level name
distinctness. -/
lemma phase3_spec (B : ℚ) (pool_sides : List Candidate)
    (picks : List (String × Candidate)) (st : OptState)
    (hkeys : (planKeys st.plan).Nodup)
    (hsum : planPriceSum st.plan = st.t.total_price)
    (hble : st.t.total_price ≤ B)
    (hrem : st.remaining = B - st.t.total_price)
    (hvals : ∀ e ∈ st.plan, namesNodup e.2) :
    planKeys (phase3 pool_sides picks st).1 = planKeys st.plan ∧
    planPriceSum (phase3 pool_sides picks st).1 = (phase3 pool_sides picks st).2.total_price ∧
    (phase3 pool_sides picks st).2.total_price ≤ B ∧
    (∀ e ∈ (phase3 pool_sides picks st).1, namesNodup e.2) := by
  unfold phase3
  split_ifs with h
  · exact phase3Loop_spec B 5 picks st.plan st.remaining st.t hkeys hsum hble hrem hvals
  · exact ⟨rfl, hsum, hble, hvals⟩

/-- Every fallback slot selection is a singleton, hence duplicate-free. -/
lemma fallbackPlan_entries (slots : List Slot) :
    ∀ e ∈ fallbackPlan slots, namesNodup e.2 := by
  suffices h : ∀ (l : List Slot) (acc : Plan), (∀ e ∈ acc, namesNodup e.2) →
      ∀ e ∈ l.foldl (fun acc s => match s.pool with
        | [] => acc
        | c :: _ => planUpsert acc s.name [c]) acc, namesNodup e.2 by
    exact h slots [] (by simp)
  intro l
  induction l with
  | nil => intro acc hacc; simpa using hacc
  | cons s rest ih =>
    intro acc hacc
    simp only [List.foldl_cons]
    cases hp : s.pool with
    | nil => exact ih acc hacc
    | cons c cs =>
      apply ih
      intro e he
      unfold planUpsert at he
      split_ifs at he with hsome
      · rcases planSet_mem _ _ _ _ he with h2 | h2
        · exact hacc e h2
        · rw [h2]; simp [namesNodup]
      · rcases List.mem_append.mp he with h2 | h2
        · exact hacc e h2
        · rw [List.mem_singleton] at h2
          rw [h2]
          simp [namesNodup]

/-- The initial plan of a non-empty slot list is non-empty. -/
lemma planInit_ne_nil (slots : List Slot) (h : slots ≠ []) : planInit slots ≠ [] := by
  cases slots with
  | nil => exact absurd rfl h
  | cons s rest =>
    unfold planInit planInitFrom
    have hnone : (List.lookup s.name ([] : Plan)).isSome = false := by simp [List.lookup]
    rw [if_neg (by simp [hnone])]
    obtain ⟨ext, he, _⟩ := planInitFrom_append rest ([] ++ [(s.name, [])])
    rw [he]
    simp

/-- Selection-pipeline invariants: every slot selection of the final plan
is name-distinct, and when the zero-calorie fallback is not triggered the
summed price of the final plan stays within the daily budget. -/
lemma plan_pipeline_spec (B : ℚ) (tgt : ℤ) (allC : List Candidate) (slots : List Slot)
    (sides : List Candidate) (chk : ℕ → List Candidate → List Candidate)
    (picks : List (String × Candidate)) (hB : 0 ≤ B) :
    (∀ e ∈ (plan_pipeline B tgt allC slots sides chk picks).1, namesNodup e.2) ∧
    ((plan_pipeline B tgt allC slots sides chk picks).2.total_cals ≠ 0 →
      planPriceSum (plan_pipeline B tgt allC slots sides chk picks).1 ≤ B) := by
  unfold plan_pipeline
  dsimp only
  obtain ⟨a1, a2, a3, a4⟩ := phase1_spec B tgt allC (sorted_slots slots) (planInit slots)
    ⟨0, 0, 0⟩ (planInit_keys_nodup slots)
    (by rw [planPriceSum_of_entries_nil _ (planInit_entries_nil slots)])
    hB
    (fun s hs => planInit_covers slots s ((sorted_slots_perm slots).subset hs))
    (fun e he => by rw [namesNodup, planInit_entries_nil slots e he]; simp)
  set r1 := phase1 B tgt allC (sorted_slots slots) (planInit slots) ⟨0, 0, 0⟩ with hr1
  obtain ⟨b1, b2, b3, b4, b5⟩ := phase2_spec chk allC slots B r1.1 r1.2
    (by rw [a1]; exact planInit_keys_nodup slots) a2 a3 a4
  set st2 := phase2 chk allC slots B r1.1 r1.2 with hst2
  obtain ⟨c1, c2, c3, c4⟩ := phase3_spec B sides picks st2
    (by rw [b1, a1]; exact planInit_keys_nodup slots) b2 b3 b4 b5
  set r3 := phase3 sides picks st2 with hr3
  constructor
  · intro e he
    by_cases hcond : (r3.1 = [] ∨ r3.2.total_cals = 0)
    · rw [if_pos hcond] at he
      exact fallbackPlan_entries slots e he
    · rw [if_neg hcond] at he
      exact c4 e he
  · intro hcals
    by_cases hcond : (r3.1 = [] ∨ r3.2.total_cals = 0)
    · rw [if_pos hcond]
      rcases hcond with hnil | hz
      · have hkeysr3 : planKeys r3.1 = planKeys (planInit slots) := by rw [c1, b1, a1]
        have hkinit : planKeys (planInit slots) = [] := by
          rw [← hkeysr3, hnil]
          rfl
        have hinit : planInit slots = [] := by
          cases hpi : planInit slots with
          | nil => rfl
          | cons x xs => rw [hpi] at hkinit; simp [planKeys] at hkinit
        have hslots : slots = [] := by
          by_contra hs
          exact planInit_ne_nil slots hs hinit
        rw [hslots]
        have hfb : fallbackPlan ([] : List Slot) = [] := rfl
        rw [hfb]
        have hzero : planPriceSum ([] : Plan) = 0 := rfl
        rw [hzero]
        exact hB
      · exact absurd hz hcals
    · rw [if_neg hcond]
      rw [c2]
      exact c3

/-- Lookup on the empty plan misses. -/
lemma lookup_nil (k : String) : List.lookup k ([] : Plan) = none := rfl

/-- Lookup unfolds over a cons cell through a propositional test. -/
lemma lookup_cons (k a : String) (b : List Candidate) (rest : Plan) :
    List.lookup k ((a, b) :: rest) = if k = a then some b else List.lookup k rest := by
  by_cases h : k = a
  · simp [List.lookup, h]
  · have hb : (k == a) = false := beq_eq_false_iff_ne.mpr h
    simp [List.lookup, hb, h]

/-- Pool construction for the one-item catalog at budget 50. -/
lemma S2a_pools : candidatePoolStage 50 [gmeat] [] []
    = ⟨[cmeat], [cmeat], [cmeat, cmeat], [cmeat, cmeat]⟩ := by
  norm_num [candidatePoolStage, addGlobalItems, addEgyptianItems, addCustomItems,
    backfillPools, globalCandidate, gmeat, cmeat, add_to_pool,
    (by decide : strContains (lowerChars "Lunch") "breakfast" = false),
    (by decide : strContains (lowerChars "Lunch") "lunch" = true)]

/-- Slot configuration for four meals over the one-item pools: the three
mains plus one interleaved snack slot. -/
lemma S2b_slots : slotsFor 4 [cmeat] [cmeat] [cmeat, cmeat] [cmeat, cmeat]
    = [⟨"breakfast", 1/4, [cmeat], 1⟩, ⟨"snack_1", 1/5, [cmeat, cmeat], 0⟩,
       ⟨"lunch", 3/10, [cmeat], 2⟩, ⟨"dinner", 1/4, [cmeat, cmeat], 2⟩] := by
  norm_num [slotsFor, (by decide : "snack_" ++ toString (1 : ℕ) = "snack_1")]

/-- Sorted slot order of the four-meal configuration. -/
lemma S2c_sorted : sorted_slots [(⟨"breakfast", 1/4, [cmeat], 1⟩ : Slot),
      ⟨"snack_1", 1/5, [cmeat, cmeat], 0⟩, ⟨"lunch", 3/10, [cmeat], 2⟩,
      ⟨"dinner", 1/4, [cmeat, cmeat], 2⟩]
    = [⟨"lunch", 3/10, [cmeat], 2⟩, ⟨"breakfast", 1/4, [cmeat], 1⟩,
       ⟨"dinner", 1/4, [cmeat, cmeat], 2⟩, ⟨"snack_1", 1/5, [cmeat, cmeat], 0⟩] := by
  norm_num [sorted_slots, insertSlotDesc]

/-- Initial plan of the four-meal configuration. -/
lemma S2d_init : planInit [(⟨"breakfast", 1/4, [cmeat], 1⟩ : Slot),
      ⟨"snack_1", 1/5, [cmeat, cmeat], 0⟩, ⟨"lunch", 3/10, [cmeat], 2⟩,
      ⟨"dinner", 1/4, [cmeat, cmeat], 2⟩]
    = [("breakfast", []), ("snack_1", []), ("lunch", []), ("dinner", [])] := by
  simp [planInit, planInitFrom, List.lookup]

/-- Phase 1 at budget 50 selects the item into all four slots. -/
lemma S2e_phase1 : phase1 50 2000 [cmeat, cmeat, cmeat, cmeat, cmeat, cmeat]
    [⟨"lunch", 3/10, [cmeat], 2⟩, ⟨"breakfast", 1/4, [cmeat], 1⟩,
     ⟨"dinner", 1/4, [cmeat, cmeat], 2⟩, ⟨"snack_1", 1/5, [cmeat, cmeat], 0⟩]
    [("breakfast", []), ("snack_1", []), ("lunch", []), ("dinner", [])] ⟨0, 0, 0⟩
    = ([("breakfast", [cmeat]), ("snack_1", [cmeat]), ("lunch", [cmeat]),
        ("dinner", [cmeat])], ⟨40, 2000, 100⟩) := by
  norm_num [phase1, phase1Slot, planGet, planSet, slotCalTarget, truncQ, lookup_cons,
    lookup_nil, cmeat,
    (by decide : ¬ ("breakfast" = "lunch")), (by decide : ¬ ("lunch" = "breakfast")),
    (by decide : ¬ ("breakfast" = "dinner")), (by decide : ¬ ("dinner" = "breakfast")),
    (by decide : ¬ ("lunch" = "dinner")), (by decide : ¬ ("dinner" = "lunch")),
    (by decide : ¬ ("snack_1" = "breakfast")), (by decide : ¬ ("breakfast" = "snack_1")),
    (by decide : ¬ ("snack_1" = "lunch")), (by decide : ¬ ("lunch" = "snack_1")),
    (by decide : ¬ ("snack_1" = "dinner")), (by decide : ¬ ("dinner" = "snack_1"))]

/-- Phase 2 at budget 50 finds no upgrade. -/
lemma S2f_phase2 : phase2 idChk [cmeat, cmeat, cmeat, cmeat, cmeat, cmeat]
    [⟨"breakfast", 1/4, [cmeat], 1⟩, ⟨"snack_1", 1/5, [cmeat, cmeat], 0⟩,
     ⟨"lunch", 3/10, [cmeat], 2⟩, ⟨"dinner", 1/4, [cmeat, cmeat], 2⟩] 50
    [("breakfast", [cmeat]), ("snack_1", [cmeat]), ("lunch", [cmeat]), ("dinner", [cmeat])]
    ⟨40, 2000, 100⟩
    = ⟨[("breakfast", [cmeat]), ("snack_1", [cmeat]), ("lunch", [cmeat]),
        ("dinner", [cmeat])], 10, ⟨40, 2000, 100⟩, 12⟩ := by
  norm_num [phase2, phase2Pass, upgradeWalk, findUpgrade, planGet, planSet, idChk,
    lookup_cons, lookup_nil, cmeat, List.take,
    (by decide : ¬ ("breakfast" = "lunch")), (by decide : ¬ ("lunch" = "breakfast")),
    (by decide : ¬ ("breakfast" = "dinner")), (by decide : ¬ ("dinner" = "breakfast")),
    (by decide : ¬ ("lunch" = "dinner")), (by decide : ¬ ("dinner" = "lunch")),
    (by decide : ¬ ("snack_1" = "breakfast")), (by decide : ¬ ("breakfast" = "snack_1")),
    (by decide : ¬ ("snack_1" = "lunch")), (by decide : ¬ ("lunch" = "snack_1")),
    (by decide : ¬ ("snack_1" = "dinner")), (by decide : ¬ ("dinner" = "snack_1"))]

/-- Phase 3 with no sides is skipped. -/
lemma S2g_phase3 : phase3 [] ([] : List (String × Candidate))
    ⟨[("breakfast", [cmeat]), ("snack_1", [cmeat]), ("lunch", [cmeat]),
      ("dinner", [cmeat])], 10, ⟨40, 2000, 100⟩, 12⟩
    = ([("breakfast", [cmeat]), ("snack_1", [cmeat]), ("lunch", [cmeat]),
        ("dinner", [cmeat])], ⟨40, 2000, 100⟩) := by
  norm_num [phase3]

/-- Full evaluation of the else-branch body at budget 50 and four meals. -/
lemma S2h_success : plan_success [gmeat] [] [] false [] 2000 50 4 4
    idSort idSort idSort idSort idSort idChk [] = S2result := by
  have hsep : separateSides ⟨[cmeat], [cmeat], [cmeat, cmeat], [cmeat, cmeat]⟩
      [cmeat, cmeat, cmeat, cmeat, cmeat, cmeat]
      = (⟨[cmeat], [cmeat], [cmeat, cmeat], [cmeat, cmeat]⟩, []) := by
    norm_num [separateSides, (by decide : is_side_dish cmeat = false)]
  have hq40 : quantize1 40 = 40 := by norm_num [quantize1, roundHalfEven, Int.fract]
  unfold plan_success
  rw [show max (1 : ℚ) 50 = 50 by norm_num, show max (500 : ℤ) 2000 = 2000 by norm_num,
    show max (1 : ℤ) (min 10 4) = 4 by norm_num]
  dsimp only
  rw [S2a_pools]
  rw [show all_candidates ⟨[cmeat], [cmeat], [cmeat, cmeat], [cmeat, cmeat]⟩
      = [cmeat, cmeat, cmeat, cmeat, cmeat, cmeat] from rfl]
  rw [hsep]
  dsimp only [idSort]
  rw [show addStudioRecipes false [] ⟨[cmeat], [cmeat], [cmeat, cmeat], [cmeat, cmeat]⟩
      = ⟨[cmeat], [cmeat], [cmeat, cmeat], [cmeat, cmeat]⟩ from rfl]
  dsimp only
  rw [S2b_slots]
  unfold plan_pipeline
  rw [S2c_sorted, S2d_init]
  dsimp only
  rw [S2e_phase1]
  dsimp only
  rw [S2f_phase2, S2g_phase3]
  dsimp only
  norm_num [S2result, hq40, truncQ, next_variant, STRATEGY_NAMES]
  exact fun hcontra => absurd hcontra (by simp)

/-- Endpoint evaluation of the four-meal budget-50 scenario. -/
lemma S2i_ok : generate_plan [gmeat] [] [] false [] 2000 50 4 4
    idSort idSort idSort idSort idSort idChk [] = PlanOutcome.ok S2result := by
  unfold generate_plan
  dsimp only
  rw [show max (1 : ℚ) 50 = 50 by norm_num, S2a_pools]
  rw [if_neg (by
    rw [show all_candidates ⟨[cmeat], [cmeat], [cmeat, cmeat], [cmeat, cmeat]⟩
      = [cmeat, cmeat, cmeat, cmeat, cmeat, cmeat] from rfl]
    simp)]
  rw [if_neg (by norm_num), if_neg (by norm_num), if_neg (by norm_num)]
  rw [S2h_success]

/-- Pool construction for the one-item catalog at budget 15. -/
lemma S3a_pools : candidatePoolStage 15 [gmeat] [] []
    = ⟨[cmeat], [cmeat], [cmeat, cmeat], [cmeat, cmeat]⟩ := by
  norm_num [candidatePoolStage, addGlobalItems, addEgyptianItems, addCustomItems,
    backfillPools, globalCandidate, gmeat, cmeat, add_to_pool,
    (by decide : strContains (lowerChars "Lunch") "breakfast" = false),
    (by decide : strContains (lowerChars "Lunch") "lunch" = true)]

/-- Phase 1 at budget 15 can afford only one slot of the four. -/
lemma S3e_phase1 : phase1 15 2000 [cmeat, cmeat, cmeat, cmeat, cmeat, cmeat]
    [⟨"lunch", 3/10, [cmeat], 2⟩, ⟨"breakfast", 1/4, [cmeat], 1⟩,
     ⟨"dinner", 1/4, [cmeat, cmeat], 2⟩, ⟨"snack_1", 1/5, [cmeat, cmeat], 0⟩]
    [("breakfast", []), ("snack_1", []), ("lunch", []), ("dinner", [])] ⟨0, 0, 0⟩
    = ([("breakfast", []), ("snack_1", []), ("lunch", [cmeat]), ("dinner", [])],
        ⟨10, 500, 25⟩) := by
  norm_num [phase1, phase1Slot, planGet, planSet, slotCalTarget, truncQ, lookup_cons,
    lookup_nil, cmeat,
    (by decide : ¬ ("breakfast" = "lunch")), (by decide : ¬ ("lunch" = "breakfast")),
    (by decide : ¬ ("breakfast" = "dinner")), (by decide : ¬ ("dinner" = "breakfast")),
    (by decide : ¬ ("lunch" = "dinner")), (by decide : ¬ ("dinner" = "lunch")),
    (by decide : ¬ ("snack_1" = "breakfast")), (by decide : ¬ ("breakfast" = "snack_1")),
    (by decide : ¬ ("snack_1" = "lunch")), (by decide : ¬ ("lunch" = "snack_1")),
    (by decide : ¬ ("snack_1" = "dinner")), (by decide : ¬ ("dinner" = "snack_1"))]

/-- Phase 2 at budget 15 finds no upgrade. -/
lemma S3f_phase2 : phase2 idChk [cmeat, cmeat, cmeat, cmeat, cmeat, cmeat]
    [⟨"breakfast", 1/4, [cmeat], 1⟩, ⟨"snack_1", 1/5, [cmeat, cmeat], 0⟩,
     ⟨"lunch", 3/10, [cmeat], 2⟩, ⟨"dinner", 1/4, [cmeat, cmeat], 2⟩] 15
    [("breakfast", []), ("snack_1", []), ("lunch", [cmeat]), ("dinner", [])]
    ⟨10, 500, 25⟩
    = ⟨[("breakfast", []), ("snack_1", []), ("lunch", [cmeat]), ("dinner", [])], 5,
        ⟨10, 500, 25⟩, 3⟩ := by
  norm_num [phase2, phase2Pass, upgradeWalk, findUpgrade, planGet, planSet, idChk,
    lookup_cons, lookup_nil, cmeat, List.take,
    (by decide : ¬ ("breakfast" = "lunch")), (by decide : ¬ ("lunch" = "breakfast")),
    (by decide : ¬ ("breakfast" = "dinner")), (by decide : ¬ ("dinner" = "breakfast")),
    (by decide : ¬ ("lunch" = "dinner")), (by decide : ¬ ("dinner" = "lunch")),
    (by decide : ¬ ("snack_1" = "breakfast")), (by decide : ¬ ("breakfast" = "snack_1")),
    (by decide : ¬ ("snack_1" = "lunch")), (by decide : ¬ ("lunch" = "snack_1")),
    (by decide : ¬ ("snack_1" = "dinner")), (by decide : ¬ ("dinner" = "snack_1"))]

/-- Phase 3 at budget 15 is skipped for lack of sides. -/
lemma S3g_phase3 : phase3 [] ([] : List (String × Candidate))
    ⟨[("breakfast", []), ("snack_1", []), ("lunch", [cmeat]), ("dinner", [])], 5,
      ⟨10, 500, 25⟩, 3⟩
    = ([("breakfast", []), ("snack_1", []), ("lunch", [cmeat]), ("dinner", [])],
        ⟨10, 500, 25⟩) := by
  norm_num [phase3]

/-- Full evaluation of the else-branch body at budget 15: a partial
one-item plan is built for a four-meal request. -/
lemma S3h_success : plan_success [gmeat] [] [] false [] 2000 15 4 4
    idSort idSort idSort idSort idSort idChk [] = S3result := by
  have hsep : separateSides ⟨[cmeat], [cmeat], [cmeat, cmeat], [cmeat, cmeat]⟩
      [cmeat, cmeat, cmeat, cmeat, cmeat, cmeat]
      = (⟨[cmeat], [cmeat], [cmeat, cmeat], [cmeat, cmeat]⟩, []) := by
    norm_num [separateSides, (by decide : is_side_dish cmeat = false)]
  have hq10 : quantize1 10 = 10 := by norm_num [quantize1, roundHalfEven, Int.fract]
  unfold plan_success
  rw [show max (1 : ℚ) 15 = 15 by norm_num, show max (500 : ℤ) 2000 = 2000 by norm_num,
    show max (1 : ℤ) (min 10 4) = 4 by norm_num]
  dsimp only
  rw [S3a_pools]
  rw [show all_candidates ⟨[cmeat], [cmeat], [cmeat, cmeat], [cmeat, cmeat]⟩
      = [cmeat, cmeat, cmeat, cmeat, cmeat, cmeat] from rfl]
  rw [hsep]
  dsimp only [idSort]
  rw [show addStudioRecipes false [] ⟨[cmeat], [cmeat], [cmeat, cmeat], [cmeat, cmeat]⟩
      = ⟨[cmeat], [cmeat], [cmeat, cmeat], [cmeat, cmeat]⟩ from rfl]
  dsimp only
  rw [S2b_slots]
  unfold plan_pipeline
  rw [S2c_sorted, S2d_init]
  dsimp only
  rw [S3e_phase1]
  dsimp only
  rw [S3f_phase2, S3g_phase3]
  dsimp only
  norm_num [S3result, hq10, truncQ, next_variant, STRATEGY_NAMES, planWarningText]
  exact fun hcontra => absurd hcontra (by simp)

/-- Endpoint evaluation of the four-meal budget-15 scenario. -/
lemma S3i_ok : generate_plan [gmeat] [] [] false [] 2000 15 4 4
    idSort idSort idSort idSort idSort idChk [] = PlanOutcome.ok S3result := by
  unfold generate_plan
  dsimp only
  rw [show max (1 : ℚ) 15 = 15 by norm_num, S3a_pools]
  rw [if_neg (by
    rw [show all_candidates ⟨[cmeat], [cmeat], [cmeat, cmeat], [cmeat, cmeat]⟩
      = [cmeat, cmeat, cmeat, cmeat, cmeat, cmeat] from rfl]
    simp)]
  rw [if_neg (by norm_num), if_neg (by norm_num), if_neg (by norm_num)]
  rw [S3h_success]

/-- Pool construction for the zero-calorie catalog item at budget 50. -/
lemma CE1a_pools : candidatePoolStage 50 [gmys] [] []
    = ⟨[cmys], [cmys], [cmys, cmys], [cmys, cmys]⟩ := by
  norm_num [candidatePoolStage, addGlobalItems, addEgyptianItems, addCustomItems,
    backfillPools, globalCandidate, gmys, cmys, add_to_pool,
    (by decide : strContains (lowerChars "Lunch") "breakfast" = false),
    (by decide : strContains (lowerChars "Lunch") "lunch" = true)]

/-- Side separation empties all main pools for the zero-calorie item. -/
lemma CE1b_sep : separateSides ⟨[cmys], [cmys], [cmys, cmys], [cmys, cmys]⟩
    [cmys, cmys, cmys, cmys, cmys, cmys]
    = (⟨[], [], [], [cmys, cmys]⟩, [cmys, cmys, cmys, cmys, cmys, cmys]) := by
  norm_num [separateSides, (by decide : is_side_dish cmys = true)]

/-- Recipe Studio recipe joins lunch and dinner with no budget filter. -/
lemma CE1c_studio : addStudioRecipes true [studioBowl] ⟨[], [], [], [cmys, cmys]⟩
    = ⟨[], [cbowl], [cbowl], [cmys, cmys]⟩ := by
  norm_num [addStudioRecipes, studioBowl, studioScale, cbowl, truncQ,
    (by decide : ¬ (("PIECE" : String) = "GRAM" ∨ ("PIECE" : String) = "ML"))]
  decide

/-- Slot configuration for four meals. -/
lemma CE1d_slots : slotsFor 4 [] [cbowl] [cbowl] [cmys, cmys]
    = [⟨"breakfast", 1/4, [], 1⟩, ⟨"snack_1", 1/5, [cmys, cmys], 0⟩,
       ⟨"lunch", 3/10, [cbowl], 2⟩, ⟨"dinner", 1/4, [cbowl], 2⟩] := by
  norm_num [slotsFor, (by decide : "snack_" ++ toString (1 : ℕ) = "snack_1")]

/-- Sorted slot order of the four-meal configuration. -/
lemma CE1e_sorted : sorted_slots [(⟨"breakfast", 1/4, [], 1⟩ : Slot),
      ⟨"snack_1", 1/5, [cmys, cmys], 0⟩, ⟨"lunch", 3/10, [cbowl], 2⟩,
      ⟨"dinner", 1/4, [cbowl], 2⟩]
    = [⟨"lunch", 3/10, [cbowl], 2⟩, ⟨"breakfast", 1/4, [], 1⟩,
       ⟨"dinner", 1/4, [cbowl], 2⟩, ⟨"snack_1", 1/5, [cmys, cmys], 0⟩] := by
  norm_num [sorted_slots, insertSlotDesc]

/-- Initial plan of the four-meal configuration. -/
lemma CE1f_init : planInit [(⟨"breakfast", 1/4, [], 1⟩ : Slot),
      ⟨"snack_1", 1/5, [cmys, cmys], 0⟩, ⟨"lunch", 3/10, [cbowl], 2⟩,
      ⟨"dinner", 1/4, [cbowl], 2⟩]
    = [("breakfast", []), ("snack_1", []), ("lunch", []), ("dinner", [])] := by
  simp [planInit, planInitFrom, List.lookup]

/-- Phase 1 selects only the zero-calorie side into breakfast. -/
lemma CE1g_phase1 : phase1 50 2000 [cmys, cmys, cmys, cmys, cmys, cmys]
    [⟨"lunch", 3/10, [cbowl], 2⟩, ⟨"breakfast", 1/4, [], 1⟩,
     ⟨"dinner", 1/4, [cbowl], 2⟩, ⟨"snack_1", 1/5, [cmys, cmys], 0⟩]
    [("breakfast", []), ("snack_1", []), ("lunch", []), ("dinner", [])] ⟨0, 0, 0⟩
    = ([("breakfast", [cmys]), ("snack_1", []), ("lunch", []), ("dinner", [])],
        ⟨30, 0, 2⟩) := by
  norm_num [phase1, phase1Slot, planGet, planSet, slotCalTarget, truncQ, lookup_cons,
    lookup_nil, cmys, cbowl,
    (by decide : ¬ ("breakfast" = "lunch")), (by decide : ¬ ("lunch" = "breakfast")),
    (by decide : ¬ ("breakfast" = "dinner")), (by decide : ¬ ("dinner" = "breakfast")),
    (by decide : ¬ ("lunch" = "dinner")), (by decide : ¬ ("dinner" = "lunch")),
    (by decide : ¬ ("snack_1" = "breakfast")), (by decide : ¬ ("breakfast" = "snack_1")),
    (by decide : ¬ ("snack_1" = "lunch")), (by decide : ¬ ("lunch" = "snack_1")),
    (by decide : ¬ ("snack_1" = "dinner")), (by decide : ¬ ("dinner" = "snack_1"))]

/-- Phase 2 finds no upgrade in the fallback scenario. -/
lemma CE1h_phase2 : phase2 idChk [cmys, cmys, cmys, cmys, cmys, cmys]
    [⟨"breakfast", 1/4, [], 1⟩, ⟨"snack_1", 1/5, [cmys, cmys], 0⟩,
     ⟨"lunch", 3/10, [cbowl], 2⟩, ⟨"dinner", 1/4, [cbowl], 2⟩] 50
    [("breakfast", [cmys]), ("snack_1", []), ("lunch", []), ("dinner", [])] ⟨30, 0, 2⟩
    = ⟨[("breakfast", [cmys]), ("snack_1", []), ("lunch", []), ("dinner", [])], 20,
        ⟨30, 0, 2⟩, 3⟩ := by
  norm_num [phase2, phase2Pass, upgradeWalk, findUpgrade, planGet, planSet, idChk,
    lookup_cons, lookup_nil, cmys, cbowl, List.take,
    (by decide : ¬ ("breakfast" = "lunch")), (by decide : ¬ ("lunch" = "breakfast")),
    (by decide : ¬ ("breakfast" = "dinner")), (by decide : ¬ ("dinner" = "breakfast")),
    (by decide : ¬ ("lunch" = "dinner")), (by decide : ¬ ("dinner" = "lunch")),
    (by decide : ¬ ("snack_1" = "breakfast")), (by decide : ¬ ("breakfast" = "snack_1")),
    (by decide : ¬ ("snack_1" = "lunch")), (by decide : ¬ ("lunch" = "snack_1")),
    (by decide : ¬ ("snack_1" = "dinner")), (by decide : ¬ ("dinner" = "snack_1"))]

/-- Phase 3 rejects every pick: the side costs more than the remainder. -/
lemma CE1i_phase3 : phase3 [cmys, cmys, cmys, cmys, cmys, cmys]
    (List.replicate 5 ("lunch", cmys))
    ⟨[("breakfast", [cmys]), ("snack_1", []), ("lunch", []), ("dinner", [])], 20,
      ⟨30, 0, 2⟩, 3⟩
    = ([("breakfast", [cmys]), ("snack_1", []), ("lunch", []), ("dinner", [])],
        ⟨30, 0, 2⟩) := by
  norm_num [phase3, phase3Loop, List.replicate, planGet, planSet, lookup_cons, lookup_nil,
    cmys,
    (by decide : ¬ ("lunch" = "breakfast")), (by decide : ¬ ("lunch" = "snack_1")),
    (by decide : ¬ ("lunch" = "dinner"))]

/-- The fallback plan picks the head of every non-empty slot pool with no
budget check. -/
lemma CE1j_fallback : fallbackPlan [(⟨"breakfast", 1/4, [], 1⟩ : Slot),
      ⟨"snack_1", 1/5, [cmys, cmys], 0⟩, ⟨"lunch", 3/10, [cbowl], 2⟩,
      ⟨"dinner", 1/4, [cbowl], 2⟩]
    = [("snack_1", [cmys]), ("lunch", [cbowl]), ("dinner", [cbowl])] := by
  norm_num [fallbackPlan, planUpsert, planSet, lookup_cons, lookup_nil,
    (by decide : ¬ ("lunch" = "snack_1")), (by decide : ¬ ("dinner" = "snack_1")),
    (by decide : ¬ ("dinner" = "lunch"))]

/-- Full evaluation of the fallback scenario: the zero-calorie total
triggers the fallback plan. -/
lemma CE1k_success : plan_success [gmys] [] [] true [studioBowl] 2000 50 4 4
    idSort idSort idSort idSort idSort idChk (List.replicate 5 ("lunch", cmys))
    = CE1result := by
  have hq30 : quantize1 30 = 30 := by norm_num [quantize1, roundHalfEven, Int.fract]
  unfold plan_success
  rw [show max (1 : ℚ) 50 = 50 by norm_num, show max (500 : ℤ) 2000 = 2000 by norm_num,
    show max (1 : ℤ) (min 10 4) = 4 by norm_num]
  dsimp only
  rw [CE1a_pools]
  rw [show all_candidates ⟨[cmys], [cmys], [cmys, cmys], [cmys, cmys]⟩
      = [cmys, cmys, cmys, cmys, cmys, cmys] from rfl]
  rw [CE1b_sep]
  dsimp only [idSort]
  rw [CE1c_studio]
  dsimp only
  rw [CE1d_slots]
  unfold plan_pipeline
  rw [CE1e_sorted, CE1f_init]
  dsimp only
  rw [CE1g_phase1]
  dsimp only
  rw [CE1h_phase2, CE1i_phase3]
  dsimp only
  rw [if_pos (Or.inr rfl), CE1j_fallback]
  norm_num [CE1result, hq30, truncQ, next_variant, STRATEGY_NAMES, planWarningText]

/-- Endpoint evaluation of the fallback scenario. -/
lemma CE1l_ok : generate_plan [gmys] [] [] true [studioBowl] 2000 50 4 4
    idSort idSort idSort idSort idSort idChk (List.replicate 5 ("lunch", cmys))
    = PlanOutcome.ok CE1result := by
  unfold generate_plan
  dsimp only
  rw [show max (1 : ℚ) 50 = 50 by norm_num, CE1a_pools]
  rw [if_neg (by
    rw [show all_candidates ⟨[cmys], [cmys], [cmys, cmys], [cmys, cmys]⟩
      = [cmys, cmys, cmys, cmys, cmys, cmys] from rfl]
    simp)]
  rw [if_neg (by norm_num), if_neg (by norm_num), if_neg (by norm_num)]
  rw [CE1k_success]

/-- Pool construction for the two-item catalog of the side-separation
scenario. -/
lemma C8a_pools : candidatePoolStage 50 [gegg, gmeat] [] []
    = ⟨[cegg], [cmeat], [cegg, cmeat], [cegg, cmeat]⟩ := by
  norm_num [candidatePoolStage, addGlobalItems, addEgyptianItems, addCustomItems,
    backfillPools, globalCandidate, gegg, gmeat, cegg, cmeat, add_to_pool,
    (by decide : strContains (lowerChars "Lunch") "breakfast" = false),
    (by decide : strContains (lowerChars "Lunch") "lunch" = true),
    (by decide : strContains (lowerChars "Breakfast") "breakfast" = true)]

/-- Side separation leaves the breakfast pool empty in the side-separation
scenario. -/
lemma C8b_sep : separateSides ⟨[cegg], [cmeat], [cegg, cmeat], [cegg, cmeat]⟩
    [cegg, cmeat, cegg, cmeat, cegg, cmeat]
    = (⟨[], [cmeat], [cmeat], [cegg, cmeat]⟩, [cegg, cegg, cegg]) := by
  norm_num [separateSides, (by decide : is_side_dish cegg = true),
    (by decide : is_side_dish cmeat = false)]

/-- Claim C1, amended: whenever the plan-generation view returns a plan at
all (which the source does only for clamped meal counts of four or more)
and the zero-calorie fallback is not triggered (the reported calorie total
is non-zero), the summed price of every candidate selected anywhere in the
returned plan, across phase-1 selection, phase-2 upgrade swaps and phase-3
added sides, stays within the clamped daily budget.  The fallback plan is
exempt and can exceed it. -/
theorem budget_hard_constraint_phases (global_items : List MarketPriceItem)
    (egyptian_items : List EgyptianMeal) (custom_items : List UserCustomMeal)
    (include_custom : Bool) (user_recipes : List StudioRecipe)
    (req_target_calories : ℤ) (req_daily_budget : ℚ) (req_meals_count last_plan_variant : ℤ)
    (sortB sortL sortD sortS sortSide : List Candidate → List Candidate)
    (chk : ℕ → List Candidate → List Candidate) (picks : List (String × Candidate))
    (r : PlanResult)
    (hr : generate_plan global_items egyptian_items custom_items include_custom
      user_recipes req_target_calories req_daily_budget req_meals_count last_plan_variant
      sortB sortL sortD sortS sortSide chk picks = PlanOutcome.ok r)
    (hc : r.total_calories ≠ 0) :
    planPriceSum r.plan ≤ max 1 req_daily_budget := by
  unfold generate_plan at hr
  dsimp only at hr
  split_ifs at hr
  have heq : plan_success global_items egyptian_items custom_items include_custom
      user_recipes req_target_calories req_daily_budget req_meals_count last_plan_variant
      sortB sortL sortD sortS sortSide chk picks = r := PlanOutcome.ok.inj hr
  subst heq
  unfold plan_success at hc ⊢
  dsimp only at hc ⊢
  have hB : (0 : ℚ) ≤ max 1 req_daily_budget := le_trans zero_le_one (le_max_left _ _)
  exact (plan_pipeline_spec _ _ _ _ _ _ _ hB).2 hc

/-- Witness for C1 at the four-meal budget-50 scenario. -/
theorem budget_hard_constraint_phases_witness :
    planPriceSum S2result.plan ≤ max 1 (50 : ℚ) :=
  budget_hard_constraint_phases [gmeat] [] [] false [] 2000 50 4 4
    idSort idSort idSort idSort idSort idChk [] S2result S2i_ok
    (by norm_num [S2result])

/-- Counterexample for C1 as stated: in the four-meal fallback scenario
the view returns a plan whose summed candidate prices are 230 against a
supplied daily budget of 50. -/
theorem budget_fallback_counterexample :
    generate_plan [gmys] [] [] true [studioBowl] 2000 50 4 4
      idSort idSort idSort idSort idSort idChk (List.replicate 5 ("lunch", cmys))
      = PlanOutcome.ok CE1result ∧
    planPriceSum CE1result.plan = 230 ∧ ¬ ((230 : ℚ) ≤ 50) := by
  refine ⟨CE1l_ok, ?_, by norm_num⟩
  norm_num [planPriceSum, priceSum, CE1result, cmys, cbowl]

/-- Claim C2, amended: within any single slot of a returned plan no
candidate name occurs twice (the per-slot duplicate check compares exact
names); the same candidate may still be selected into several different
slots. -/
theorem no_duplicate_within_slot (global_items : List MarketPriceItem)
    (egyptian_items : List EgyptianMeal) (custom_items : List UserCustomMeal)
    (include_custom : Bool) (user_recipes : List StudioRecipe)
    (req_target_calories : ℤ) (req_daily_budget : ℚ) (req_meals_count last_plan_variant : ℤ)
    (sortB sortL sortD sortS sortSide : List Candidate → List Candidate)
    (chk : ℕ → List Candidate → List Candidate) (picks : List (String × Candidate))
    (r : PlanResult)
    (hr : generate_plan global_items egyptian_items custom_items include_custom
      user_recipes req_target_calories req_daily_budget req_meals_count last_plan_variant
      sortB sortL sortD sortS sortSide chk picks = PlanOutcome.ok r)
    (e : String × List Candidate) (he : e ∈ r.plan) :
    namesNodup e.2 := by
  unfold generate_plan at hr
  dsimp only at hr
  split_ifs at hr
  have heq : plan_success global_items egyptian_items custom_items include_custom
      user_recipes req_target_calories req_daily_budget req_meals_count last_plan_variant
      sortB sortL sortD sortS sortSide chk picks = r := PlanOutcome.ok.inj hr
  subst heq
  unfold plan_success at he
  dsimp only at he
  have hB : (0 : ℚ) ≤ max 1 req_daily_budget := le_trans zero_le_one (le_max_left _ _)
  exact (plan_pipeline_spec _ _ _ _ _ _ _ hB).1 e he

/-- Witness for C2 at the four-meal budget-50 scenario. -/
theorem no_duplicate_within_slot_witness :
    namesNodup [cmeat] :=
  no_duplicate_within_slot [gmeat] [] [] false [] 2000 50 4 4
    idSort idSort idSort idSort idSort idChk [] S2result S2i_ok
    ("lunch", [cmeat]) (by simp [S2result])

/-- Counterexample for C2 as stated: the four-meal budget-50 scenario
returns a plan in which candidate id 1 is selected four times, once in
each slot. -/
theorem duplicate_across_slots_counterexample :
    generate_plan [gmeat] [] [] false [] 2000 50 4 4
      idSort idSort idSort idSort idSort idChk [] = PlanOutcome.ok S2result ∧
    planIdCount S2result.plan (CandId.db 1) = 4 ∧ (1 : ℕ) < 4 := by
  refine ⟨S2i_ok, ?_, by norm_num⟩
  norm_num [planIdCount, S2result, cmeat]

/-- Claim C3, amended: no Infeasible error exists anywhere in the code.
Whenever any candidate survives the budget filter and the clamped meal
count is at least four, the view returns HTTP 200 with a (possibly
partial) plan, attaching a warning when the achieved calories fall short;
failing to reach the requested meal count within budget never produces an
error.  The empty-pool 404 is the only response the body constructs
outside that branch: for clamped meal counts of one to three, control
falls off the end of the function with no response at all, and the
orphaned exception handler at views.py lines 1795-1802 (a syntax error as
staged) would map exceptions to a 500, not to any Infeasible result. -/
theorem only_error_is_empty_pool (global_items : List MarketPriceItem)
    (egyptian_items : List EgyptianMeal) (custom_items : List UserCustomMeal)
    (include_custom : Bool) (user_recipes : List StudioRecipe)
    (req_target_calories : ℤ) (req_daily_budget : ℚ) (req_meals_count last_plan_variant : ℤ)
    (sortB sortL sortD sortS sortSide : List Candidate → List Candidate)
    (chk : ℕ → List Candidate → List Candidate) (picks : List (String × Candidate))
    (hne : all_candidates (candidatePoolStage (max 1 req_daily_budget) global_items
      egyptian_items custom_items) ≠ [])
    (hmc : 4 ≤ max 1 (min 10 req_meals_count)) :
    generate_plan global_items egyptian_items custom_items include_custom
      user_recipes req_target_calories req_daily_budget req_meals_count last_plan_variant
      sortB sortL sortD sortS sortSide chk picks
    = PlanOutcome.ok (plan_success global_items egyptian_items custom_items include_custom
      user_recipes req_target_calories req_daily_budget req_meals_count last_plan_variant
      sortB sortL sortD sortS sortSide chk picks) := by
  unfold generate_plan
  dsimp only
  rw [if_neg hne, if_neg (by omega), if_neg (by omega), if_neg (by omega)]

/-- Witness for C3 at the four-meal budget-50 scenario. -/
theorem only_error_is_empty_pool_witness :
    all_candidates (candidatePoolStage (max 1 (50 : ℚ)) [gmeat] [] []) ≠ [] ∧
    4 ≤ max 1 (min 10 (4 : ℤ)) ∧
    generate_plan [gmeat] [] [] false [] 2000 50 4 4
      idSort idSort idSort idSort idSort idChk []
    = PlanOutcome.ok (plan_success [gmeat] [] [] false [] 2000 50 4 4
      idSort idSort idSort idSort idSort idChk []) := by
  have hne : all_candidates (candidatePoolStage (max 1 (50 : ℚ)) [gmeat] [] []) ≠ [] := by
    rw [show max (1 : ℚ) 50 = 50 by norm_num, S2a_pools]
    simp [all_candidates]
  exact ⟨hne, by norm_num, only_error_is_empty_pool [gmeat] [] [] false [] 2000 50 4 4
    idSort idSort idSort idSort idSort idChk [] hne (by norm_num)⟩

/-- Counterexample for C3 as stated: at budget 15 a four-meal request is
answered with a successful one-item partial plan, not an infeasibility. -/
theorem partial_plan_counterexample :
    generate_plan [gmeat] [] [] false [] 2000 15 4 4
      idSort idSort idSort idSort idSort idChk [] = PlanOutcome.ok S3result ∧
    planItemCount S3result.plan = 1 ∧ (1 : ℕ) < 4 := by
  refine ⟨S3i_ok, ?_, by norm_num⟩
  norm_num [planItemCount, S3result]

/-- Claim C8, amended: the pool the selection loop iterates over (the slot
pool, or the full pre-separation candidate list when the slot pool is
empty) is never empty while any candidate survived the budget filter.  The
backfill with the other pools happens before side separation; a pool
emptied by side separation is replaced by the full candidate list instead. -/
theorem selection_pool_nonempty (meals_count : ℤ) (pb pl pd ps allC : List Candidate)
    (s : Slot) (hs : s ∈ slotsFor meals_count pb pl pd ps) (hne : allC ≠ []) :
    (if s.pool = [] then allC else s.pool) ≠ [] := by
  by_cases h : s.pool = []
  · rw [if_pos h]
    exact hne
  · rw [if_neg h]
    exact h

/-- Witness for C8 at the one-meal slot configuration. -/
theorem selection_pool_nonempty_witness :
    ((⟨"dinner", 1, ([] : List Candidate), 4⟩ : Slot) ∈ slotsFor 1 [] [] [] []) ∧
    ([cmeat] : List Candidate) ≠ [] ∧
    (if (⟨"dinner", 1, ([] : List Candidate), 4⟩ : Slot).pool = [] then [cmeat]
      else (⟨"dinner", 1, ([] : List Candidate), 4⟩ : Slot).pool) ≠ [] := by
  have h1 : (⟨"dinner", 1, ([] : List Candidate), 4⟩ : Slot) ∈ slotsFor 1 [] [] [] [] := by
    norm_num [slotsFor]
  have h2 : ([cmeat] : List Candidate) ≠ [] := by simp
  exact ⟨h1, h2, selection_pool_nonempty 1 [] [] [] [] [cmeat] _ h1 h2⟩

/-- Counterexample for C8 as stated: in the side-separation scenario the
breakfast pool ends up empty after side separation and stays empty (no
backfill), and the pool used by the selection loop is the full candidate
list, not the union of the other main pools. -/
theorem backfill_mechanism_counterexample :
    (separateSides (candidatePoolStage 50 [gegg, gmeat] [] [])
      (all_candidates (candidatePoolStage 50 [gegg, gmeat] [] []))).1.breakfast = [] ∧
    (if (separateSides (candidatePoolStage 50 [gegg, gmeat] [] [])
          (all_candidates (candidatePoolStage 50 [gegg, gmeat] [] []))).1.breakfast = []
      then all_candidates (candidatePoolStage 50 [gegg, gmeat] [] [])
      else (separateSides (candidatePoolStage 50 [gegg, gmeat] [] [])
        (all_candidates (candidatePoolStage 50 [gegg, gmeat] [] []))).1.breakfast)
    ≠ (separateSides (candidatePoolStage 50 [gegg, gmeat] [] [])
        (all_candidates (candidatePoolStage 50 [gegg, gmeat] [] []))).1.lunch
      ++ (separateSides (candidatePoolStage 50 [gegg, gmeat] [] [])
        (all_candidates (candidatePoolStage 50 [gegg, gmeat] [] []))).1.dinner := by
  have hall : all_candidates ⟨[cegg], [cmeat], [cegg, cmeat], [cegg, cmeat]⟩
      = [cegg, cmeat, cegg, cmeat, cegg, cmeat] := rfl
  rw [C8a_pools, hall, C8b_sep]
  refine ⟨rfl, ?_⟩
  rw [if_pos rfl]
  intro hcontra
  have hlen := congrArg List.length hcontra
  simp at hlen

/-- Lunch-pool membership is preserved by the custom-meal loop. -/
lemma addCustomItems_lunch_mono (customs : List UserCustomMeal) :
    ∀ (p : Pools) (c : Candidate), c ∈ p.lunch → c ∈ (addCustomItems customs p).lunch := by
  induction customs with
  | nil =>
    intro p c h
    simpa [addCustomItems] using h
  | cons m rest ih =>
    intro p c h
    simp only [addCustomItems, List.foldl_cons]
    by_cases hc : m.calories > 400
    · rw [if_pos hc]
      exact ih _ c (List.mem_append_left _ h)
    · rw [if_neg hc]
      exact ih _ c (List.mem_append_left _ h)

/-- Every saved custom meal enters the lunch pool, with no reference to
any budget. -/
lemma addCustomItems_mem (m : UserCustomMeal) (customs : List UserCustomMeal)
    (hm : m ∈ customs) : ∀ p : Pools, customCandidate m ∈ (addCustomItems customs p).lunch := by
  induction customs with
  | nil => simp at hm
  | cons m0 rest ih =>
    intro p
    rcases List.mem_cons.mp hm with h | h
    · subst h
      simp only [addCustomItems, List.foldl_cons]
      by_cases hc : m.calories > 400
      · rw [if_pos hc]
        exact addCustomItems_lunch_mono rest _ _ (List.mem_append_right _ (by simp))
      · rw [if_neg hc]
        exact addCustomItems_lunch_mono rest _ _ (List.mem_append_right _ (by simp))
    · simp only [addCustomItems, List.foldl_cons]
      by_cases hc : m0.calories > 400
      · rw [if_pos hc]
        exact ih h _
      · rw [if_neg hc]
        exact ih h _

/-- Claim C10: a saved custom meal always becomes a candidate with price
exactly 0, enters the pools through a loop that applies no daily-budget
filter, always passes the phase-1 budget check while the running total is
within budget, and contributes nothing to the total cost. -/
theorem custom_meal_zero_price_unfiltered (m : UserCustomMeal)
    (customs : List UserCustomMeal) (p : Pools) (tp daily_budget : ℚ)
    (hm : m ∈ customs) (htp : tp ≤ daily_budget) :
    (customCandidate m).price = 0 ∧
    customCandidate m ∈ (addCustomItems customs p).lunch ∧
    ¬ (tp + (customCandidate m).price > daily_budget) ∧
    tp + (customCandidate m).price = tp := by
  refine ⟨rfl, addCustomItems_mem m customs hm p, ?_, ?_⟩
  · have hz : (customCandidate m).price = 0 := rfl
    rw [hz]
    simpa using htp
  · have hz : (customCandidate m).price = 0 := rfl
    rw [hz]
    ring

/-- Witness for C10 at a concrete saved custom meal. -/
theorem custom_meal_zero_price_unfiltered_witness :
    customSample ∈ [customSample] ∧ (20 : ℚ) ≤ 50 ∧
    ((customCandidate customSample).price = 0 ∧
      customCandidate customSample ∈ (addCustomItems [customSample] ⟨[], [], [], []⟩).lunch ∧
      ¬ ((20 : ℚ) + (customCandidate customSample).price > 50) ∧
      (20 : ℚ) + (customCandidate customSample).price = 20) :=
  ⟨by simp, by norm_num,
    custom_meal_zero_price_unfiltered customSample [customSample] ⟨[], [], [], []⟩ 20 50
      (by simp) (by norm_num)⟩

/-- Claim C5, amended: the rotation increment of views.py lines 1512-1517
runs only inside the four-or-more-meals else-branch.  For every call that
reaches it (any candidate surviving the budget filter and a clamped meal
count of at least four), the stored index advances to (last + 1) mod 5,
the advanced index selects the reported strategy name, and five
consecutive advances visit all five strategies exactly once before
repeating.  Calls with a clamped meal count of three or fewer never reach
the rotation code. -/
theorem strategy_rotation_cycles (global_items : List MarketPriceItem)
    (egyptian_items : List EgyptianMeal) (custom_items : List UserCustomMeal)
    (include_custom : Bool) (user_recipes : List StudioRecipe)
    (req_target_calories : ℤ) (req_daily_budget : ℚ) (req_meals_count : ℤ) (v : ℤ)
    (sortB sortL sortD sortS sortSide : List Candidate → List Candidate)
    (chk : ℕ → List Candidate → List Candidate) (picks : List (String × Candidate))
    (hne : all_candidates (candidatePoolStage (max 1 req_daily_budget) global_items
      egyptian_items custom_items) ≠ [])
    (hmc : 4 ≤ max 1 (min 10 req_meals_count)) :
    (∃ r : PlanResult, generate_plan global_items egyptian_items custom_items
        include_custom user_recipes req_target_calories req_daily_budget
        req_meals_count v sortB sortL sortD sortS sortSide chk picks
        = PlanOutcome.ok r ∧
      r.new_last_variant = next_variant v ∧
      r.strategy_name = STRATEGY_NAMES.getD (next_variant v).toNat "") ∧
    List.Perm (strategiesVisited v) STRATEGY_NAMES := by
  constructor
  · refine ⟨plan_success global_items egyptian_items custom_items include_custom
      user_recipes req_target_calories req_daily_budget req_meals_count v
      sortB sortL sortD sortS sortSide chk picks, ?_, rfl, rfl⟩
    unfold generate_plan
    dsimp only
    rw [if_neg hne, if_neg (by omega), if_neg (by omega), if_neg (by omega)]
  · exact strategiesVisited_perm v

/-- Witness for C5 at the four-meal budget-50 scenario with stored
index 4. -/
theorem strategy_rotation_cycles_witness :
    all_candidates (candidatePoolStage (max 1 (50 : ℚ)) [gmeat] [] []) ≠ [] ∧
    4 ≤ max 1 (min 10 (4 : ℤ)) ∧
    ((∃ r : PlanResult, generate_plan [gmeat] [] [] false [] 2000 50 4 4
        idSort idSort idSort idSort idSort idChk [] = PlanOutcome.ok r ∧
      r.new_last_variant = next_variant 4 ∧
      r.strategy_name = STRATEGY_NAMES.getD (next_variant 4).toNat "") ∧
    List.Perm (strategiesVisited 4) STRATEGY_NAMES) := by
  have hne : all_candidates (candidatePoolStage (max 1 (50 : ℚ)) [gmeat] [] []) ≠ [] := by
    rw [show max (1 : ℚ) 50 = 50 by norm_num, S2a_pools]
    simp [all_candidates]
  exact ⟨hne, by norm_num, strategy_rotation_cycles [gmeat] [] [] false [] 2000 50 4 4
    idSort idSort idSort idSort idSort idChk [] hne (by norm_num)⟩

/-- Counterexample for C5 as stated: the default three-meal request never
reaches the rotation code — control falls off the end of the view body
with no response, so this plan-generation call does not advance the
stored index. -/
theorem rotation_skipped_counterexample :
    generate_plan [gmeat] [] [] false [] 2000 50 3 4
      idSort idSort idSort idSort idSort idChk [] = PlanOutcome.noResponse := by
  unfold generate_plan
  dsimp only
  rw [show max (1 : ℚ) 50 = 50 by norm_num, S2a_pools]
  rw [if_neg (by
    rw [show all_candidates ⟨[cmeat], [cmeat], [cmeat, cmeat], [cmeat, cmeat]⟩
      = [cmeat, cmeat, cmeat, cmeat, cmeat, cmeat] from rfl]
    simp)]
  rw [if_neg (by norm_num), if_neg (by norm_num), if_pos (by norm_num)]
